import Mathlib

/-!
# Inkwell server: publishing policy and book lifecycle

A shallow embedding of the request handlers of `src/routes/books.js`,
`src/routes/bookmarks.js` and of `src/scripts/cleanupDeletedBooks.js`.

* A JavaScript string is the list of its UTF-16 code units, so that `.length`
  is `List.length` and `.includes` is a search for a contiguous sublist.
* `String.prototype.toLowerCase` is a builtin of the runtime; every handler
  that calls it takes it as the argument `lower`.
* The table `Books` is a list of rows; `findOne` returns the first row that
  matches, `save` rewrites the row with the instance's primary key.
* A handler is a function from the table to the HTTP response and the new
  table. The clock reads of one request are one instant `now` (milliseconds).
* A request field is `none` when the body has no such key (`undefined`) or
  carries a JSON `null`, which every handler but the autosave treats alike,
  and `some v` when it carries a value of the column's type. A field of an
  autosave body keeps the two apart (`DraftField`).
* A row has the columns `models/Book.js` declares. Whether the database stores
  a row the way the instance holds it (a title within `VARCHAR(255)`, a price
  within `DECIMAL(10, 2)`, text it keeps unchanged) is decided outside the
  repository: the handlers that write request data take that decision as the
  argument `accepts`. A row it does not store that way is a failed write:
  `save` or `create` throws, as on a title longer than the column. A write
  that the database would store in a changed form is outside the model.
* `setDate(getDate() + 10)` is calendar arithmetic in the server's zone; the
  soft delete takes it as the argument `tenDaysAfter`.
-/

namespace Inkwell

/-! ## Strings -/

/-- A JavaScript string: its UTF-16 code units. -/
abbrev JsString := List Nat

/-- UTF-16 code units of one character. -/
def utf16 (c : Char) : List Nat :=
  if c.toNat < 65536 then [c.toNat]
  else [55296 + (c.toNat - 65536) / 1024, 56320 + (c.toNat - 65536) % 1024]

/-- The JavaScript string written as the literal `s`. -/
def js (s : String) : JsString := s.toList.flatMap utf16

/-- `s.includes(sub)`: `sub` occurs in `s` as a contiguous run of code units. -/
def includes (s sub : JsString) : Bool :=
  s.tails.any (fun t => sub.isPrefixOf t)

/-- Truthiness of a string that may be `undefined`: present and non-empty. -/
def truthyStr : Option JsString → Bool
  | some (_ :: _) => true
  | _ => false

/-- `x || null` on an optional string. -/
def orNull (x : Option JsString) : Option JsString :=
  if truthyStr x then x else none

/-- `x || d` on an optional string with a string default. -/
def orDefault (x : Option JsString) (d : JsString) : JsString :=
  match x with
  | some (c :: cs) => c :: cs
  | _ => d

/-! ## Constants of `routes/books.js` -/

def MAX_BOOKS_PER_DAY : Nat := 2

def MIN_CHARACTER_COUNT : Nat := 5000

def BANNED_TITLE_PHRASES : List JsString :=
  [ js "READ THIS NOW!",
    js "You won't believe...",
    js "Shocking secret",
    js "This will blow your mind",
    js "Must read!",
    js "What happens next will shock you",
    js "Top 10 reasons",
    js "The ultimate guide",
    js "Don't miss this",
    js "Guaranteed results",
    js "Click here",
    js "Buy now",
    js "MUST READ THIS NOW!",
    js "FREE GIFT",
    js "Limited time offer",
    js "Act fast",
    js "Last chance",
    js "Exclusive deal",
    js "Unbelievable offer" ]

/-- Milliseconds in `24 * 60 * 60 * 1000`. -/
def DAY_MS : Int := 24 * 60 * 60 * 1000

/-- Ten days of 24 hours. -/
def TEN_DAYS_MS : Int := 10 * DAY_MS

/-! ## The Book model (`models/Book.js`) -/

/-- A row of `Books`. A value a column cannot hold as it is (a title longer
than the column, a price out of range or with more than two decimals) makes a
row that `accepts` turns down. -/
structure Book where
  id : Nat
  userId : Nat
  title : JsString
  subtitle : Option JsString
  description : JsString
  synopsis : Option JsString
  content : JsString
  genre : List JsString
  tags : List JsString
  coverImage : Option JsString
  language : JsString
  license : JsString
  isPublished : Bool
  isMonetized : Bool
  price : Option Rat
  lastSavedAt : Int
  publishedAt : Option Int
  isDeleted : Bool
  deletedAt : Option Int
  scheduledForDeletionAt : Option Int
  deriving DecidableEq, Repr

/-- The table of books. -/
abbrev Store := List Book

/-- What a handler sends back. -/
inductive Response where
  | book (status : Nat) (b : Book)
  | scheduled (deletedAt scheduledForDeletionAt : Int)
  | restored (b : Book)
  | error (status : Nat) (message : String)
  deriving DecidableEq, Repr

/-- HTTP status of a response. -/
def Response.status : Response → Nat
  | .book st _ => st
  | .scheduled _ _ => 200
  | .restored _ => 200
  | .error st _ => st

/-- `Book.findOne({ where: { id, userId, isDeleted } })`. -/
def findOne (s : Store) (id userId : Nat) (isDeleted : Bool) : Option Book :=
  s.find? (fun b => b.id == id && b.userId == userId && b.isDeleted == isDeleted)

/-- `Book.findOne({ where: { id, userId } })`, the lookup of `GET /:id`. -/
def findOwned (s : Store) (id userId : Nat) : Option Book :=
  s.find? (fun b => b.id == id && b.userId == userId)

/-- Lookup by primary key. -/
def findById (s : Store) (id : Nat) : Option Book :=
  s.find? (fun b => b.id == id)

/-- The write of `book.save()`: the row with the instance's primary key takes
its values. Whether the database takes the row is the handler's `accepts`. -/
def save (s : Store) (b : Book) : Store :=
  s.map (fun r => if r.id = b.id then b else r)

/-- `book.destroy()`: the row with the instance's primary key is removed. -/
def destroy (s : Store) (b : Book) : Store :=
  s.filter (fun r => r.id != b.id)

/-- `Book.count({ where: { userId, publishedAt: { [Op.gte]: since } } })`;
a row whose `publishedAt` is NULL does not match. -/
def countPublishedSince (s : Store) (userId : Nat) (since : Int) : Nat :=
  (s.filter (fun b => b.userId == userId &&
    (match b.publishedAt with
     | some p => decide (since ≤ p)
     | none => false))).length

/-! ## Publishing (`PUT /:id/publish`) -/

/-- Body of a publish request. -/
structure PublishBody where
  title : Option JsString
  description : Option JsString
  content : Option JsString
  subtitle : Option JsString
  synopsis : Option JsString
  genre : Option (List JsString)
  tags : Option (List JsString)
  coverImage : Option JsString
  language : Option JsString
  license : Option JsString
  isMonetized : Option Bool
  price : Option Rat
  deriving DecidableEq, Repr

/-- `BANNED_TITLE_PHRASES.some(phrase =>
title.toLowerCase().includes(phrase.toLowerCase()))`. -/
def hasBannedTitle (lower : JsString → JsString) (title : JsString) : Bool :=
  BANNED_TITLE_PHRASES.any (fun phrase => includes (lower title) (lower phrase))

def SERVER_ERROR : Response := .error 500 "Server error"

def MSG_BANNED : String := "Title contains phrases that are not allowed"

def MSG_TOO_SHORT : String := "Book must be at least 5000 characters long"

def MSG_RATE : String := "You can only publish 2 books per 24 hours"

def MSG_NOT_FOUND : String := "Book not found or already deleted"

def MSG_REQUIRED : String := "Title, description and at least one genre are required"

/-- The assignments of lines 297-311 on the found instance. -/
def applyPublish (book : Book) (title description content : JsString)
    (genre : List JsString) (body : PublishBody) (now : Int) : Book :=
  { book with
    title := title
    description := description
    content := content
    subtitle := orNull body.subtitle
    synopsis := orNull body.synopsis
    genre := genre
    tags := body.tags.getD []
    coverImage := orNull body.coverImage
    language := orDefault body.language (js "English")
    license := orDefault body.license (js "All rights reserved")
    isMonetized := body.isMonetized.getD false
    price := if body.isMonetized = some true then body.price else none
    isPublished := true
    publishedAt := some now
    lastSavedAt := now }

/-- The handler of `PUT /:id/publish`. Reading `title.toLowerCase` or
`content.length` of a missing field throws, and so does `book.save()` on a row
that `accepts` turns down; the `catch` answers 500. -/
def publish (lower : JsString → JsString) (accepts : Book → Bool) (s : Store)
    (id user : Nat) (body : PublishBody) (now : Int) : Response × Store :=
  match body.title with
  | none => (SERVER_ERROR, s)
  | some title =>
    if hasBannedTitle lower title then (.error 400 MSG_BANNED, s)
    else
      match body.content with
      | none => (SERVER_ERROR, s)
      | some content =>
        if content.length < MIN_CHARACTER_COUNT then (.error 400 MSG_TOO_SHORT, s)
        else if countPublishedSince s user (now - DAY_MS) ≥ MAX_BOOKS_PER_DAY then
          (.error 429 MSG_RATE, s)
        else
          match findOne s id user false with
          | none => (.error 404 MSG_NOT_FOUND, s)
          | some book =>
            match title, body.description, body.genre with
            | _ :: _, some (d :: ds), some (g :: gs) =>
              let book1 := applyPublish book title (d :: ds) content (g :: gs) body now
              if accepts book1 then (.book 200 book1, save s book1)
              else (SERVER_ERROR, s)
            | _, _, _ => (.error 400 MSG_REQUIRED, s)

/-! ## Creating and saving drafts (`POST /`, `PUT /:id`) -/

/-- Body of a create request. -/
structure CreateBody where
  title : Option JsString
  description : Option JsString
  deriving DecidableEq, Repr

/-- The row `Book.create({ userId, title, description, content: '' })` inserts,
with the column defaults of the model. -/
def newBook (newId user : Nat) (title description : JsString) (now : Int) : Book :=
  { id := newId
    userId := user
    title := title
    subtitle := none
    description := description
    synopsis := none
    content := []
    genre := []
    tags := []
    coverImage := none
    language := js "English"
    license := js "All rights reserved"
    isPublished := false
    isMonetized := false
    price := none
    lastSavedAt := now
    publishedAt := none
    isDeleted := false
    deletedAt := none
    scheduledForDeletionAt := none }

/-- The handler of `POST /`. `newId` is the UUID the insert draws; the primary
key refuses a value already in the table, `Book.create` throws on a row that
`accepts` turns down, and the `catch` answers 500. -/
def create (accepts : Book → Bool) (s : Store) (user newId : Nat) (body : CreateBody)
    (now : Int) : Response × Store :=
  match body.title, body.description with
  | some (t :: ts), some (d :: ds) =>
    if (findById s newId).isSome then (SERVER_ERROR, s)
    else
      let book := newBook newId user (t :: ts) (d :: ds) now
      if accepts book then (.book 201 book, s ++ [book]) else (SERVER_ERROR, s)
  | _, _ => (.error 400 "Title and description are required", s)

/-- A field of an autosave body: missing, JSON `null`, or a string. -/
inductive DraftField where
  | undefined
  | null
  | str (v : JsString)
  deriving DecidableEq, Repr

/-- The field is a JSON `null`. -/
def DraftField.isNull : DraftField → Bool
  | .null => true
  | _ => false

/-- The column after `if (f !== undefined) book.f = f` for a field that is not
`null`. -/
def DraftField.assign (f : DraftField) (old : JsString) : JsString :=
  match f with
  | .str v => v
  | _ => old

/-- Body of an autosave request. -/
structure DraftBody where
  content : DraftField
  title : DraftField
  description : DraftField
  deriving DecidableEq, Repr

/-- The assignments of lines 212-216 on the found instance, for a body without
`null`. -/
def applyDraft (book : Book) (body : DraftBody) (now : Int) : Book :=
  { book with
    content := body.content.assign book.content
    title := body.title.assign book.title
    description := body.description.assign book.description
    lastSavedAt := now }

/-- The handler of `PUT /:id` (autosave). A `null` passes `!== undefined` and
is assigned; the three columns are declared `allowNull: false`, so
`book.save()` throws, as it does on a row that `accepts` turns down, and the
`catch` answers 500. -/
def saveDraft (accepts : Book → Bool) (s : Store) (id user : Nat) (body : DraftBody)
    (now : Int) : Response × Store :=
  match findOne s id user false with
  | none => (.error 404 MSG_NOT_FOUND, s)
  | some book =>
    if body.content.isNull || body.title.isNull || body.description.isNull then
      (SERVER_ERROR, s)
    else
      let book1 := applyDraft book body now
      if accepts book1 then (.book 200 book1, save s book1) else (SERVER_ERROR, s)

/-! ## Soft delete, restore and the cleanup script -/

/-- The handler of `DELETE /:id`. `tenDaysAfter now` is the instant
`setDate(getDate() + 10)` gives for `now` in the server's zone. The save
writes a flag and two dates, which no column refuses. -/
def softDelete (tenDaysAfter : Int → Int) (s : Store) (id user : Nat) (now : Int) :
    Response × Store :=
  match findOne s id user false with
  | none => (.error 404 MSG_NOT_FOUND, s)
  | some book =>
    let tenDaysFromNow := tenDaysAfter now
    let book1 := { book with
      isDeleted := true
      deletedAt := some now
      scheduledForDeletionAt := some tenDaysFromNow }
    (.scheduled now tenDaysFromNow, save s book1)

/-- The handler of `POST /:id/restore`. The save writes a flag and two nulls,
which no column refuses. -/
def restore (s : Store) (id user : Nat) : Response × Store :=
  match findOne s id user true with
  | none => (.error 404 "Book not found or not in deleted state", s)
  | some book =>
    let book1 := { book with
      isDeleted := false
      deletedAt := none
      scheduledForDeletionAt := none }
    (.restored book1, save s book1)

/-- The row filter of the cleanup query:
`isDeleted: true, scheduledForDeletionAt: { [Op.lt]: now }`. -/
def isExpired (now : Int) (b : Book) : Bool :=
  b.isDeleted &&
    (match b.scheduledForDeletionAt with
     | some t => decide (t < now)
     | none => false)

/-- The result of the `findAll` of the cleanup script. -/
def booksToDelete (s : Store) (now : Int) : List Book :=
  s.filter (isExpired now)

/-- The `for` loop of the cleanup script. `fails book` says that
`book.destroy()` throws; the one `try` around the loop then ends the run. -/
def destroyEach (fails : Book → Bool) : List Book → Store → Store
  | [], s => s
  | book :: rest, s =>
    if fails book then s else destroyEach fails rest (destroy s book)

/-- The script `cleanupDeletedBooks` run at time `now`. -/
def cleanupDeletedBooks (fails : Book → Bool) (s : Store) (now : Int) : Store :=
  destroyEach fails (booksToDelete s now) s

/-! ## Bookmarks (`models/Bookmark.js`, `routes/bookmarks.js`) -/

/-- The `pageIndex` of a request body: missing, JSON `null`, or a number. -/
inductive PageIndex where
  | undefined
  | null
  | num (n : Int)
  deriving DecidableEq, Repr

inductive BookmarkType where
  | book
  | page
  deriving DecidableEq, Repr

structure Bookmark where
  id : Nat
  userId : Nat
  bookId : Nat
  pageIndex : Option Int
  type : BookmarkType
  deriving DecidableEq, Repr

/-- `pageIndex || null`: `undefined`, `null` and `0` are falsy. -/
def PageIndex.orNull : PageIndex → Option Int
  | .num n => if n = 0 then none else some n
  | _ => none

/-- `pageIndex !== undefined ? 'page' : 'book'`. -/
def PageIndex.type : PageIndex → BookmarkType
  | .undefined => .book
  | _ => .page

inductive BookmarkResponse where
  | created (b : Bookmark)
  | error (status : Nat) (message : String)
  deriving DecidableEq, Repr

/-- `Bookmark.findOne({ where: { userId, bookId, pageIndex } })`. -/
def findBookmark (bs : List Bookmark) (user bookId : Nat) (pageIndex : Option Int) :
    Option Bookmark :=
  bs.find? (fun m => m.userId == user && m.bookId == bookId && m.pageIndex == pageIndex)

/-- The handler of `POST /` of the bookmark routes. `newId` is the UUID the
insert draws; a value already in the table is refused and the `catch` answers 500. -/
def addBookmark (books : Store) (bs : List Bookmark) (user newId : Nat)
    (bookId : Option Nat) (pageIndex : PageIndex) : BookmarkResponse × List Bookmark :=
  match bookId with
  | none => (.error 400 "Book ID is required", bs)
  | some bookId =>
    match books.find? (fun b => b.id == bookId && b.isPublished && !b.isDeleted) with
    | none => (.error 404 "Book not found", bs)
    | some _ =>
      match findBookmark bs user bookId pageIndex.orNull with
      | some _ => (.error 400 "Bookmark already exists", bs)
      | none =>
        if bs.any (fun m => m.id == newId) then (.error 500 "Server error", bs)
        else
          let bookmark : Bookmark :=
            { id := newId
              userId := user
              bookId := bookId
              pageIndex := pageIndex.orNull
              type := pageIndex.type }
          (.created bookmark, bs ++ [bookmark])

/-! ## Reachable tables -/

/-- One request to the book routes, or one run of the cleanup script. -/
inductive Op where
  | create (user newId : Nat) (body : CreateBody) (now : Int)
  | saveDraft (id user : Nat) (body : DraftBody) (now : Int)
  | publish (id user : Nat) (body : PublishBody) (now : Int)
  | softDelete (id user : Nat) (now : Int)
  | restore (id user : Nat)
  | purgeExpired (fails : Book → Bool) (now : Int)

/-- The table after the operation. -/
def Op.run (lower : JsString → JsString) (accepts : Book → Bool) (tenDaysAfter : Int → Int)
    (s : Store) : Op → Store
  | .create user newId body now => (Inkwell.create accepts s user newId body now).2
  | .saveDraft id user body now => (Inkwell.saveDraft accepts s id user body now).2
  | .publish id user body now => (Inkwell.publish lower accepts s id user body now).2
  | .softDelete id user now => (Inkwell.softDelete tenDaysAfter s id user now).2
  | .restore id user => (Inkwell.restore s id user).2
  | .purgeExpired fails now => cleanupDeletedBooks fails s now

/-- The tables the operations produce from the empty table. -/
inductive Reachable (lower : JsString → JsString) (accepts : Book → Bool)
    (tenDaysAfter : Int → Int) : Store → Prop where
  | empty : Reachable lower accepts tenDaysAfter []
  | step (s : Store) (op : Op) :
      Reachable lower accepts tenDaysAfter s →
      Reachable lower accepts tenDaysAfter (op.run lower accepts tenDaysAfter s)

/-- Well-formed table: primary keys are distinct, and a row that is not
deleted has no deletion timestamps. -/
def WellFormed (s : Store) : Prop :=
  (s.map Book.id).Nodup ∧
  ∀ b ∈ s, b.isDeleted = false → b.deletedAt = none ∧ b.scheduledForDeletionAt = none

/-- ASCII lower-casing of code units, one instance of `toLowerCase`. -/
def asciiLower (s : JsString) : JsString :=
  s.map (fun c => if 65 ≤ c ∧ c ≤ 90 then c + 32 else c)

/-- One instance of the database's decision: a row is taken when its title has
at most 255 code units and it has no price, or a price of at most two decimals
below `10 ^ 8`. -/
def titleFits (b : Book) : Bool :=
  decide (b.title.length ≤ 255) &&
    (match b.price with
     | none => true
     | some p => decide ((p * 100).den = 1 ∧ |p| < 100000000))

/-- One instance of the calendar: ten days of 24 hours, as on a server whose
zone has no clock change. -/
def utcTenDays (now : Int) : Int := now + TEN_DAYS_MS

/-! ## Requests used as concrete inputs -/

/-- A body with nothing but the given title and content. -/
def bodyOf (title content : Option JsString) : PublishBody :=
  { title := title
    description := none
    content := content
    subtitle := none
    synopsis := none
    genre := none
    tags := none
    coverImage := none
    language := none
    license := none
    isMonetized := none
    price := none }

/-- A draft of user 1 with primary key 1, as `POST /` inserts it at time 0. -/
def draft1 : Book := newBook 1 1 (js "Dune") (js "A desert planet") 0

/-- A complete publish body: the given title and content, a description and
one genre, nothing else. -/
def fullBody (title content : JsString) : PublishBody :=
  { bodyOf (some title) (some content) with
    description := some (js "A desert planet")
    genre := some [js "Fiction"] }

/-- The `publishedAt` values the count of the rate limit counts: those of the
user's rows with `publishedAt >= since`, in table order. -/
def recentPublishedAts (s : Store) (userId : Nat) (since : Int) : List Int :=
  s.filterMap (fun b =>
    if b.userId == userId then b.publishedAt.filter (fun p => decide (since ≤ p))
    else none)

/-- Book 1 of user 1, published at the instant 1000. -/
def published1 : Book := { draft1 with isPublished := true, publishedAt := some 1000 }

/-- Book 2 of user 1, published at the instant 2000. -/
def published2 : Book :=
  { draft1 with id := 2, isPublished := true, publishedAt := some 2000 }

/-- User 1 has published the books 1 and 2, at the instants 1000 and 2000. -/
def twoPublished : Store := [published1, published2]

/-- Five thousand times the letter `a`. -/
def longContent : JsString := List.replicate 5000 97

/-- A complete publish body whose subtitle is the empty string. -/
def emptySubtitleBody : PublishBody :=
  { fullBody (js "Dune") longContent with subtitle := some [] }

/-- A publish body with a description, a long enough content and a genre, but
no `title` key. -/
def noTitleBody : PublishBody :=
  { fullBody [] longContent with title := none }

/-- What the assignment `book.f = f || null` stores for the requested `req`:
the requested string when it is present and non-empty, null otherwise. -/
def StoredOrNull (req stored : Option JsString) : Prop :=
  (∀ x, req = some x → x ≠ [] → stored = some x) ∧
  (req = none ∨ req = some [] → stored = none)

/-- What the assignment `book.f = f || d` stores for the requested `req`: the
requested string when it is present and non-empty, the default otherwise. -/
def StoredOrDefault (req : Option JsString) (d stored : JsString) : Prop :=
  (∀ x, req = some x → x ≠ [] → stored = x) ∧
  (req = none ∨ req = some [] → stored = d)

/-- The request that creates `draft1`. -/
def createDraft1 : Op :=
  .create 1 1 { title := some (js "Dune"), description := some (js "A desert planet") } 0

/-- The request that creates a second draft of user 1, with primary key 2. -/
def createDraft2 : Op :=
  .create 1 2 { title := some (js "Emma"), description := some (js "A novel") } 0

/-- The table after user 1 created the books 1 and 2 and deleted both at the
instant 0. -/
def twoDeleted : Store :=
  (Op.softDelete 2 1 0).run asciiLower titleFits utcTenDays
    ((Op.softDelete 1 1 0).run asciiLower titleFits utcTenDays
      (createDraft2.run asciiLower titleFits utcTenDays
        (createDraft1.run asciiLower titleFits utcTenDays [])))

/-- The table after user 1 created the books 1 and 2 and deleted book 1 at the
instant 0. -/
def oneDeleted : Store :=
  (Op.softDelete 1 1 0).run asciiLower titleFits utcTenDays
    (createDraft2.run asciiLower titleFits utcTenDays
      (createDraft1.run asciiLower titleFits utcTenDays []))

/-- The deletion of the book with primary key 1 fails, every other one works. -/
def failsOnBook1 (b : Book) : Bool := b.id == 1

/-- No deletion fails. -/
def neverFails (_ : Book) : Bool := false

/-- The key of a bookmark request as the uniqueness rule reads it: null for a
whole-book bookmark, the page number otherwise. -/
def PageIndex.key : PageIndex → Option Int
  | .num n => some n
  | _ => none

/-! ## The publish limit (`GET /publish-limit`) -/

/-- The answer of `GET /publish-limit`. -/
structure PublishLimit where
  count : Nat
  remaining : Int
  limit : Nat
  deriving DecidableEq, Repr

/-- The handler of `GET /publish-limit`:
`remaining: Math.max(0, MAX_BOOKS_PER_DAY - count)`. -/
def getPublishLimitStatus (s : Store) (user : Nat) (now : Int) : PublishLimit :=
  let count := countPublishedSince s user (now - DAY_MS)
  { count := count
    remaining := max 0 ((MAX_BOOKS_PER_DAY : Int) - (count : Int))
    limit := MAX_BOOKS_PER_DAY }

/-! ## Invariants of the data model, and a clock -/

/-- A published row has a publish date and a genre. -/
def PublishedStamped (b : Book) : Prop :=
  b.isPublished = true → b.publishedAt ≠ none ∧ b.genre ≠ []

/-- A published row has a publish date, a genre and content of the minimum
length. -/
def PublishedOk (b : Book) : Prop :=
  b.isPublished = true →
    b.publishedAt ≠ none ∧ b.genre ≠ [] ∧ MIN_CHARACTER_COUNT ≤ b.content.length

/-- A row that is not monetized has no price. -/
def PriceNullUnlessMonetized (b : Book) : Prop :=
  b.isMonetized = false → b.price = none

/-- A monetized row has a price, and a row that is not monetized has none. -/
def PriceOk (b : Book) : Prop :=
  (b.isMonetized = true → b.price ≠ none) ∧ (b.isMonetized = false → b.price = none)

/-- The clock reading of an operation; a restore reads no clock, so the time
stays where it was. -/
def Op.clock (prev : Int) : Op → Int
  | .create _ _ _ now => now
  | .saveDraft _ _ _ now => now
  | .publish _ _ _ now => now
  | .softDelete _ _ now => now
  | .restore _ _ => prev
  | .purgeExpired _ now => now

/-- The tables the operations produce from the empty table when they run one
after the other and the clock never goes back; the second index is the time of
the last operation. -/
inductive ReachableAt (lower : JsString → JsString) (accepts : Book → Bool)
    (tenDaysAfter : Int → Int) : Store → Int → Prop where
  | empty (t : Int) : ReachableAt lower accepts tenDaysAfter [] t
  | step (s : Store) (t : Int) (op : Op) :
      ReachableAt lower accepts tenDaysAfter s t → t ≤ op.clock t →
      ReachableAt lower accepts tenDaysAfter (op.run lower accepts tenDaysAfter s) (op.clock t)

/-- The first publish of `draft1`, at the instant 7. -/
def publishDraft1 : Op := .publish 1 1 (fullBody (js "Dune") longContent) 7

/-- An autosave that empties the content of book 1, at the instant 8. -/
def clearDraft1 : Op :=
  .saveDraft 1 1 { content := .str [], title := .undefined, description := .undefined } 8

/-- The table after `draft1` was created, published and emptied by an autosave. -/
def shortened : Store :=
  clearDraft1.run asciiLower titleFits utcTenDays
    (publishDraft1.run asciiLower titleFits utcTenDays
      (createDraft1.run asciiLower titleFits utcTenDays []))

/-- A complete publish body that asks for monetization and carries no price. -/
def monetizedNoPriceBody : PublishBody :=
  { fullBody (js "Dune") longContent with isMonetized := some true }

/-- The table after `draft1` was created and published with
`monetizedNoPriceBody`. -/
def monetizedNoPrice : Store :=
  (Op.publish 1 1 monetizedNoPriceBody 7).run asciiLower titleFits utcTenDays
    (createDraft1.run asciiLower titleFits utcTenDays [])

/-- The table after user 1 created the books 1 and 2 and published them at the
instants 1000 and 2000. -/
def publishedTwice : Store :=
  (Op.publish 2 1 (fullBody (js "Emma") longContent) 2000).run asciiLower titleFits utcTenDays
    ((Op.publish 1 1 (fullBody (js "Dune") longContent) 1000).run asciiLower titleFits utcTenDays
      (createDraft2.run asciiLower titleFits utcTenDays
        (createDraft1.run asciiLower titleFits utcTenDays [])))

/-- The row filter of the publish count: the row is the user's and its
`publishedAt` is not NULL and not before `since`. -/
def inWindow (userId : Nat) (since : Int) (b : Book) : Bool :=
  b.userId == userId &&
    (match b.publishedAt with
     | some p => decide (since ≤ p)
     | none => false)

/-- An autosave body whose content is a JSON `null`. -/
def nullContentBody : DraftBody :=
  { content := .null, title := .undefined, description := .undefined }

/-! ## Lemmas on strings and lookups -/

theorem includes_iff (s sub : JsString) : includes s sub = true ↔ sub <:+: s := by
  unfold includes
  rw [List.any_eq_true, List.infix_iff_prefix_suffix]
  constructor
  · rintro ⟨t, ht, hp⟩
    exact ⟨t, List.isPrefixOf_iff_prefix.mp hp, (List.mem_tails _ _).mp ht⟩
  · rintro ⟨t, hp, ht⟩
    exact ⟨t, (List.mem_tails _ _).mpr ht, List.isPrefixOf_iff_prefix.mpr hp⟩

theorem hasBannedTitle_iff (lower : JsString → JsString) (title : JsString) :
    hasBannedTitle lower title = true ↔
      ∃ phrase ∈ BANNED_TITLE_PHRASES, lower phrase <:+: lower title := by
  unfold hasBannedTitle
  rw [List.any_eq_true]
  constructor
  · rintro ⟨p, hp, h⟩
    exact ⟨p, hp, (includes_iff _ _).mp h⟩
  · rintro ⟨p, hp, h⟩
    exact ⟨p, hp, (includes_iff _ _).mpr h⟩

theorem publish_of_banned (lower : JsString → JsString) (accepts : Book → Bool)
    (s : Store) (id user : Nat)
    (body : PublishBody) (now : Int) (title : JsString)
    (ht : body.title = some title) (hb : hasBannedTitle lower title = true) :
    publish lower accepts s id user body now = (.error 400 MSG_BANNED, s) := by
  simp [publish, ht, hb]

/-! ## C1: content shorter than the minimum -/

/-- C1, as stated, fails: a request whose content is shorter than 5000
characters and whose title holds the banned phrase "Click here" is answered
with the banned-title message, not with the too-short message. -/
theorem publish_short_content_banned_title :
    (([] : JsString).length < 5000) ∧
    publish asciiLower titleFits [draft1] 1 1 (bodyOf (some (js "Click here")) (some [])) 0
      = (.error 400 MSG_BANNED, [draft1]) ∧
    (publish asciiLower titleFits [draft1] 1 1 (bodyOf (some (js "Click here")) (some [])) 0).1
      ≠ .error 400 MSG_TOO_SHORT := by
  decide

/-- C1, amended: a publish request that carries a title and whose content has
fewer than 5000 code units is answered 400 and leaves the table as it was; the
message is the too-short one when the title has no banned phrase and the
banned-title one when it has. -/
theorem publish_short_content_rejected (lower : JsString → JsString) (accepts : Book → Bool)
    (s : Store)
    (id user : Nat) (body : PublishBody) (now : Int) (title content : JsString)
    (ht : body.title = some title) (hc : body.content = some content)
    (hlen : content.length < 5000) :
    (publish lower accepts s id user body now).2 = s ∧
    (publish lower accepts s id user body now).1.status = 400 ∧
    (hasBannedTitle lower title = false →
      publish lower accepts s id user body now = (.error 400 MSG_TOO_SHORT, s)) ∧
    (hasBannedTitle lower title = true →
      publish lower accepts s id user body now = (.error 400 MSG_BANNED, s)) := by
  have hlen2 : content.length < MIN_CHARACTER_COUNT := hlen
  cases hb : hasBannedTitle lower title <;>
    simp [publish, ht, hc, hb, hlen2, Response.status]

/-- Instance of C1, amended: 4000 code units of content under the title "Dune". -/
theorem publish_short_content_rejected_witness :
    (fullBody (js "Dune") (List.replicate 4000 97)).title = some (js "Dune") ∧
    (fullBody (js "Dune") (List.replicate 4000 97)).content
      = some (List.replicate 4000 97) ∧
    (List.replicate 4000 97).length < 5000 ∧
    hasBannedTitle asciiLower (js "Dune") = false ∧
    publish asciiLower titleFits [draft1] 1 1 (fullBody (js "Dune") (List.replicate 4000 97)) 0
      = (.error 400 MSG_TOO_SHORT, [draft1]) :=
  ⟨rfl, rfl, by simp only [List.length_replicate]; decide, by decide,
    (publish_short_content_rejected asciiLower titleFits [draft1] 1 1
      (fullBody (js "Dune") (List.replicate 4000 97)) 0 (js "Dune")
      (List.replicate 4000 97) rfl rfl
      (by simp only [List.length_replicate]; decide)).2.2.1 (by decide)⟩

/-! ## C2: banned phrases in the title -/

/-- C2: when the lower-cased title contains the lower-cased form of one of the
19 banned phrases, publish answers 400 with the banned-title message and leaves
the table as it was, whatever the content (also a missing one), the book and
the user; and so does every title with the same lower-cased form. -/
theorem publish_banned_title_rejected (lower : JsString → JsString) (accepts : Book → Bool)
    (s : Store)
    (id user : Nat) (body : PublishBody) (now : Int) (title phrase : JsString)
    (hp : phrase ∈ BANNED_TITLE_PHRASES) (hin : lower phrase <:+: lower title) :
    BANNED_TITLE_PHRASES.length = 19 ∧
    (body.title = some title →
      publish lower accepts s id user body now = (.error 400 MSG_BANNED, s)) ∧
    (∀ title2, lower title2 = lower title → body.title = some title2 →
      publish lower accepts s id user body now = (.error 400 MSG_BANNED, s) ∧
      (publish lower accepts s id user body now).1.status = 400) := by
  refine ⟨by decide, fun ht => ?_, fun title2 h2 ht => ?_⟩
  · exact publish_of_banned lower accepts s id user body now title ht
      ((hasBannedTitle_iff lower title).mpr ⟨phrase, hp, hin⟩)
  · have h := publish_of_banned lower accepts s id user body now title2 ht
      ((hasBannedTitle_iff lower title2).mpr ⟨phrase, hp, h2 ▸ hin⟩)
    rw [h]
    exact ⟨rfl, rfl⟩

/-- Instance of C2: the title "a FrEe GiFt for YOU". -/
theorem publish_banned_title_rejected_witness :
    js "FREE GIFT" ∈ BANNED_TITLE_PHRASES ∧
    asciiLower (js "FREE GIFT") <:+: asciiLower (js "A free gift for you") ∧
    asciiLower (js "a FrEe GiFt for YOU") = asciiLower (js "A free gift for you") ∧
    publish asciiLower titleFits [draft1] 1 1
        (fullBody (js "a FrEe GiFt for YOU") (List.replicate 5000 97)) 0
      = (.error 400 MSG_BANNED, [draft1]) :=
  ⟨by decide, by decide, by decide,
    ((publish_banned_title_rejected asciiLower titleFits [draft1] 1 1
      (fullBody (js "a FrEe GiFt for YOU") (List.replicate 5000 97)) 0
      (js "A free gift for you") (js "FREE GIFT") (by decide) (by decide)).2.2
      (js "a FrEe GiFt for YOU") (by decide) rfl).1⟩

/-! ## C3: the rate limit and its window -/

theorem countPublishedSince_eq (s : Store) (user : Nat) (since : Int) :
    countPublishedSince s user since = (recentPublishedAts s user since).length := by
  unfold countPublishedSince recentPublishedAts
  induction s with
  | nil => rfl
  | cons b s ih =>
    rw [List.filter_cons, List.filterMap_cons]
    cases hu : (b.userId == user) <;> cases hp : b.publishedAt with
    | none => simpa [hu, hp] using ih
    | some p =>
      by_cases hsp : since ≤ p <;> simpa [hu, hp, hsp, Option.filter] using ih

theorem recentPublishedAts_mono (s : Store) (user : Nat) (since since2 : Int)
    (h : since ≤ since2) :
    recentPublishedAts s user since2
      = (recentPublishedAts s user since).filter (fun p => decide (since2 ≤ p)) := by
  unfold recentPublishedAts
  induction s with
  | nil => rfl
  | cons b s ih =>
    rw [List.filterMap_cons, List.filterMap_cons]
    cases hu : (b.userId == user) <;> cases hp : b.publishedAt with
    | none => simpa [hu, hp] using ih
    | some p =>
      by_cases h2 : since2 ≤ p
      · have h1 : since ≤ p := le_trans h h2
        simpa [hu, hp, h1, h2, Option.filter] using ih
      · by_cases h1 : since ≤ p <;> simpa [hu, hp, h1, h2, Option.filter] using ih

theorem publish_success (lower : JsString → JsString) (accepts : Book → Bool)
    (s : Store) (id user : Nat)
    (body : PublishBody) (now : Int) (title description content : JsString)
    (genre : List JsString) (book : Book)
    (ht : body.title = some title) (hnb : hasBannedTitle lower title = false)
    (hc : body.content = some content) (hlen : 5000 ≤ content.length)
    (hrate : countPublishedSince s user (now - DAY_MS) < 2)
    (hbook : findOne s id user false = some book)
    (ht0 : title ≠ []) (hd : body.description = some description)
    (hd0 : description ≠ []) (hg : body.genre = some genre) (hg0 : genre ≠ [])
    (hacc : accepts (applyPublish book title description content genre body now) = true) :
    publish lower accepts s id user body now
      = (.book 200 (applyPublish book title description content genre body now),
         save s (applyPublish book title description content genre body now)) := by
  have hlen2 : ¬ content.length < MIN_CHARACTER_COUNT := by
    unfold MIN_CHARACTER_COUNT; omega
  have hrate2 : ¬ countPublishedSince s user (now - DAY_MS) ≥ MAX_BOOKS_PER_DAY := by
    unfold MAX_BOOKS_PER_DAY; omega
  obtain ⟨t, ts, rfl⟩ := List.exists_cons_of_ne_nil ht0
  obtain ⟨d, ds, rfl⟩ := List.exists_cons_of_ne_nil hd0
  obtain ⟨g, gs, rfl⟩ := List.exists_cons_of_ne_nil hg0
  unfold publish
  simp only [ht, hnb, hc, hbook, hd, hg]
  rw [if_neg hlen2, if_neg hrate2]
  simp [hacc]

/-- C3: when exactly two of the user's books have `publishedAt >= now - 24h`,
a publish with a title free of banned phrases and content of at least 5000
code units is answered 429 and the table stays as it was; and at every later
instant `now2` with more than 24h passed since the older of the two
`publishedAt` values, on the same table, an otherwise valid publish of an
existing, owned, non-deleted book, with a row the database stores as the
instance holds it, is answered 200 and stored. -/
theorem publish_rate_limit_window (lower : JsString → JsString) (accepts : Book → Bool) (s : Store)
    (id user : Nat) (body : PublishBody) (now : Int) (title content : JsString)
    (p1 p2 : Int)
    (hrecent : recentPublishedAts s user (now - DAY_MS) = [p1, p2])
    (ht : body.title = some title) (hnb : hasBannedTitle lower title = false)
    (hc : body.content = some content) (hlen : 5000 ≤ content.length) :
    countPublishedSince s user (now - DAY_MS) = 2 ∧
    publish lower accepts s id user body now = (.error 429 MSG_RATE, s) ∧
    (publish lower accepts s id user body now).1.status = 429 ∧
    (∀ (now2 : Int) (description : JsString) (genre : List JsString) (book : Book),
      now ≤ now2 → min p1 p2 + DAY_MS < now2 →
      findOne s id user false = some book →
      title ≠ [] → body.description = some description → description ≠ [] →
      body.genre = some genre → genre ≠ [] →
      accepts (applyPublish book title description content genre body now2) = true →
      publish lower accepts s id user body now2
        = (.book 200 (applyPublish book title description content genre body now2),
           save s (applyPublish book title description content genre body now2))) := by
  have hcount : countPublishedSince s user (now - DAY_MS) = 2 := by
    rw [countPublishedSince_eq, hrecent]; rfl
  have hlen2 : ¬ content.length < MIN_CHARACTER_COUNT := by
    unfold MIN_CHARACTER_COUNT; omega
  have hrej : publish lower accepts s id user body now = (.error 429 MSG_RATE, s) := by
    unfold publish
    simp only [ht, hnb, hc]
    rw [if_neg hlen2, hcount]
    simp [MAX_BOOKS_PER_DAY]
  refine ⟨hcount, hrej, by rw [hrej]; rfl, ?_⟩
  intro now2 description genre book hle hold hbook ht0 hd hd0 hg hg0 hacc
  have hrate : countPublishedSince s user (now2 - DAY_MS) < 2 := by
    rw [countPublishedSince_eq,
      recentPublishedAts_mono s user (now - DAY_MS) (now2 - DAY_MS) (by omega), hrecent]
    rw [List.filter_cons, List.filter_cons, List.filter_nil]
    rcases le_total p1 p2 with h12 | h12
    · rw [min_eq_left h12] at hold
      have h1 : ¬ now2 - DAY_MS ≤ p1 := by omega
      rw [decide_eq_false h1]
      by_cases h2 : now2 - DAY_MS ≤ p2
      · rw [decide_eq_true h2]; simp
      · rw [decide_eq_false h2]; simp
    · rw [min_eq_right h12] at hold
      have h2 : ¬ now2 - DAY_MS ≤ p2 := by omega
      rw [decide_eq_false h2]
      by_cases h1 : now2 - DAY_MS ≤ p1
      · rw [decide_eq_true h1]; simp
      · rw [decide_eq_false h1]; simp
  exact publish_success lower accepts s id user body now2 title description content genre book
    ht hnb hc hlen hrate hbook ht0 hd hd0 hg hg0 hacc


/-- Instance of C3: two publishes at the instants 1000 and 2000, a third try at 3000, and a publish one millisecond after the first has left the window. -/
theorem publish_rate_limit_window_witness :
    recentPublishedAts twoPublished 1 (3000 - DAY_MS) = [1000, 2000] ∧
    hasBannedTitle asciiLower (js "Dune") = false ∧
    5000 ≤ longContent.length ∧
    min (1000 : Int) 2000 + DAY_MS < 86401001 ∧
    publish asciiLower titleFits twoPublished 1 1 (fullBody (js "Dune") longContent) 3000
      = (.error 429 MSG_RATE, twoPublished) ∧
    (publish asciiLower titleFits twoPublished 1 1 (fullBody (js "Dune") longContent) 86401001).1.status
      = 200 := by
  have hlen : 5000 ≤ longContent.length := by
    unfold longContent; simp only [List.length_replicate]; decide
  have h := publish_rate_limit_window asciiLower titleFits twoPublished 1 1
    (fullBody (js "Dune") longContent) 3000 (js "Dune") longContent 1000 2000
    (by decide) rfl (by decide) rfl hlen
  refine ⟨by decide, by decide, hlen, by decide, h.2.1, ?_⟩
  rw [h.2.2.2 86401001 (js "A desert planet") [js "Fiction"]
    published1
    (by decide) (by decide) (by decide) (by decide) rfl (by decide) rfl (by decide) rfl]
  rfl

/-! ## C4: what a successful publish stores -/

theorem findOne_some (s : Store) (id user : Nat) (d : Bool) (book : Book)
    (h : findOne s id user d = some book) :
    book ∈ s ∧ book.id = id ∧ book.userId = user ∧ book.isDeleted = d := by
  unfold findOne at h
  have hm := List.mem_of_find?_eq_some h
  have hp := List.find?_some h
  simp only [Bool.and_eq_true, beq_iff_eq] at hp
  exact ⟨hm, hp.1.1, hp.1.2, hp.2⟩

theorem findById_save (s : Store) (b : Book) (h : ∃ r ∈ s, r.id = b.id) :
    findById (save s b) b.id = some b := by
  unfold findById save
  induction s with
  | nil => simp at h
  | cons r s ih =>
    by_cases hr : r.id = b.id
    · simp [hr]
    · have h2 : ∃ r ∈ s, r.id = b.id := by
        obtain ⟨x, hx, hxid⟩ := h
        rcases List.mem_cons.mp hx with rfl | hx
        · exact absurd hxid hr
        · exact ⟨x, hx, hxid⟩
      simpa [hr] using ih h2

theorem storedOrNull_orNull (req : Option JsString) : StoredOrNull req (orNull req) := by
  unfold StoredOrNull orNull
  refine ⟨fun x hx hx0 => ?_, fun h => ?_⟩
  · subst hx
    obtain ⟨c, cs, rfl⟩ := List.exists_cons_of_ne_nil hx0
    simp [truthyStr]
  · rcases h with rfl | rfl <;> simp [truthyStr]

theorem storedOrDefault_orDefault (req : Option JsString) (d : JsString) :
    StoredOrDefault req d (orDefault req d) := by
  unfold StoredOrDefault orDefault
  refine ⟨fun x hx hx0 => ?_, fun h => ?_⟩
  · subst hx
    obtain ⟨c, cs, rfl⟩ := List.exists_cons_of_ne_nil hx0
    rfl
  · rcases h with rfl | rfl <;> rfl

/-- C4, as stated, fails: a request that passes all five checks and carries
the empty string as subtitle is answered 200, and the stored subtitle is null,
not the requested empty string. -/
theorem publish_empty_subtitle_stored_null :
    emptySubtitleBody.subtitle = some [] ∧
    (publish asciiLower titleFits [draft1] 1 1 emptySubtitleBody 7).1.status = 200 ∧
    (findById (publish asciiLower titleFits [draft1] 1 1 emptySubtitleBody 7).2 1).map Book.subtitle
      = some none ∧
    (findById (publish asciiLower titleFits [draft1] 1 1 emptySubtitleBody 7).2 1).map Book.subtitle
      ≠ some emptySubtitleBody.subtitle := by
  have hlen : 5000 ≤ longContent.length := by
    unfold longContent; simp only [List.length_replicate]; decide
  rw [publish_success asciiLower titleFits [draft1] 1 1 emptySubtitleBody 7 (js "Dune")
    (js "A desert planet") longContent [js "Fiction"] draft1 rfl (by decide) rfl hlen
    (by decide) (by decide) (by decide) rfl (by decide) rfl (by decide) rfl]
  exact ⟨rfl, rfl, rfl, by decide⟩

/-- C4, amended: a publish that passes the five checks and whose row the
database stores as the instance holds it is answered 200 and the stored book
has the requested title, description, content and genre; subtitle,
synopsis and coverImage as requested when non-empty and null when absent or
empty; tags as requested or the empty list; language and license as requested
when non-empty and "English" and "All rights reserved" when absent or empty;
isMonetized as requested (false when absent), price as requested when
isMonetized is true and null otherwise; isPublished true, publishedAt and
lastSavedAt the request time; id, userId and the deletion fields as before. -/
theorem publish_stores_request (lower : JsString → JsString) (accepts : Book → Bool)
    (s : Store) (id user : Nat)
    (body : PublishBody) (now : Int) (title description content : JsString)
    (genre : List JsString) (book : Book)
    (ht : body.title = some title) (hnb : hasBannedTitle lower title = false)
    (hc : body.content = some content) (hlen : 5000 ≤ content.length)
    (hrate : countPublishedSince s user (now - DAY_MS) < 2)
    (hbook : findOne s id user false = some book)
    (ht0 : title ≠ []) (hd : body.description = some description)
    (hd0 : description ≠ []) (hg : body.genre = some genre) (hg0 : genre ≠ [])
    (hacc : accepts (applyPublish book title description content genre body now) = true) :
    ∃ b : Book,
      publish lower accepts s id user body now = (.book 200 b, save s b) ∧
      findById (save s b) id = some b ∧
      b.title = title ∧ b.description = description ∧ b.content = content ∧
      b.genre = genre ∧
      StoredOrNull body.subtitle b.subtitle ∧
      StoredOrNull body.synopsis b.synopsis ∧
      StoredOrNull body.coverImage b.coverImage ∧
      b.tags = body.tags.getD [] ∧
      StoredOrDefault body.language (js "English") b.language ∧
      StoredOrDefault body.license (js "All rights reserved") b.license ∧
      b.isMonetized = body.isMonetized.getD false ∧
      (b.isMonetized = true → b.price = body.price) ∧
      (b.isMonetized = false → b.price = none) ∧
      b.isPublished = true ∧ b.publishedAt = some now ∧ b.lastSavedAt = now ∧
      b.id = id ∧ b.userId = user ∧ b.isDeleted = false ∧
      b.id = book.id ∧ b.userId = book.userId ∧ b.isDeleted = book.isDeleted ∧
      b.deletedAt = book.deletedAt ∧
      b.scheduledForDeletionAt = book.scheduledForDeletionAt := by
  obtain ⟨hmem, hid, huser, hdel⟩ := findOne_some s id user false book hbook
  refine ⟨applyPublish book title description content genre body now,
    publish_success lower accepts s id user body now title description content genre book
      ht hnb hc hlen hrate hbook ht0 hd hd0 hg hg0 hacc, ?_, rfl, rfl, rfl, rfl,
    storedOrNull_orNull _, storedOrNull_orNull _, storedOrNull_orNull _, rfl,
    storedOrDefault_orDefault _ _, storedOrDefault_orDefault _ _, rfl, ?_, ?_,
    rfl, rfl, rfl, hid, huser, hdel, rfl, rfl, rfl, rfl, rfl⟩
  · have h := findById_save s (applyPublish book title description content genre body now)
      ⟨book, hmem, rfl⟩
    rw [← hid]
    exact h
  · intro hm
    have hm2 : body.isMonetized.getD false = true := hm
    cases hi : body.isMonetized with
    | none => rw [hi] at hm2; exact absurd hm2 (by decide)
    | some v =>
      rw [hi] at hm2
      have hv : v = true := hm2
      subst hv
      simp [applyPublish, hi]
  · intro hm
    have hm2 : body.isMonetized.getD false = false := hm
    cases hi : body.isMonetized with
    | none => simp [applyPublish, hi]
    | some v =>
      rw [hi] at hm2
      have hv : v = false := hm2
      subst hv
      simp [applyPublish, hi]

/-- Instance of C4, amended: the first publish of `draft1`. -/
theorem publish_stores_request_witness :
    hasBannedTitle asciiLower (js "Dune") = false ∧
    5000 ≤ longContent.length ∧
    countPublishedSince [draft1] 1 (7 - DAY_MS) < 2 ∧
    findOne [draft1] 1 1 false = some draft1 ∧
    ∃ b : Book,
      publish asciiLower titleFits [draft1] 1 1 (fullBody (js "Dune") longContent) 7
        = (.book 200 b, save [draft1] b) ∧
      findById (save [draft1] b) 1 = some b ∧
      b.content = longContent ∧ b.genre = [js "Fiction"] ∧ b.subtitle = none ∧
      b.language = js "English" ∧ b.isPublished = true ∧ b.publishedAt = some 7 := by
  have hlen : 5000 ≤ longContent.length := by
    unfold longContent; simp only [List.length_replicate]; decide
  obtain ⟨b, h1, h2, -, -, h5, h6, h7, -, -, -, h11, -, -, -, -, h16, h17, -⟩ :=
    publish_stores_request asciiLower titleFits [draft1] 1 1 (fullBody (js "Dune") longContent) 7
      (js "Dune") (js "A desert planet") longContent [js "Fiction"] draft1
      rfl (by decide) rfl hlen (by decide) (by decide) (by decide) rfl (by decide) rfl
      (by decide) rfl
  exact ⟨by decide, hlen, by decide, by decide, b, h1, h2, h5, h6,
    h7.2 (Or.inl rfl), h11.2 (Or.inl rfl), h16, h17⟩

/-! ## C5: required fields -/

/-- With a title in the body (a possibly empty string), and with the earlier
checks passed, a publish of an existing, owned, non-deleted book in which the
title or the description is empty, or the description or the genre is absent,
or the genre is the empty array, is answered 400 with the required-fields
message and leaves the table as it was. -/
theorem publish_required_fields (lower : JsString → JsString) (accepts : Book → Bool)
    (s : Store) (id user : Nat)
    (body : PublishBody) (now : Int) (title content : JsString) (book : Book)
    (ht : body.title = some title) (hnb : hasBannedTitle lower title = false)
    (hc : body.content = some content) (hlen : 5000 ≤ content.length)
    (hrate : countPublishedSince s user (now - DAY_MS) < 2)
    (hbook : findOne s id user false = some book)
    (hmiss : title = [] ∨ body.description = none ∨ body.description = some [] ∨
      body.genre = none ∨ body.genre = some []) :
    publish lower accepts s id user body now = (.error 400 MSG_REQUIRED, s) := by
  have hlen2 : ¬ content.length < MIN_CHARACTER_COUNT := by
    unfold MIN_CHARACTER_COUNT; omega
  have hrate2 : ¬ countPublishedSince s user (now - DAY_MS) ≥ MAX_BOOKS_PER_DAY := by
    unfold MAX_BOOKS_PER_DAY; omega
  unfold publish
  simp only [ht, hnb, hc, hbook]
  rw [if_neg hlen2, if_neg hrate2]
  rcases hmiss with h | h | h | h | h
  · subst h; simp
  · rw [h]; cases title <;> simp
  · rw [h]; cases title <;> simp
  · rw [h]; cases title <;> cases body.description <;> simp
  · rw [h]; cases title <;> cases body.description <;> simp

/-- C5 at the failing input: a publish of an existing, owned, non-deleted book
with a description, a genre and 5000 code units of content but no `title` key
is answered 500 "Server error", not 400; the table stays as it was. -/
theorem publish_missing_title_server_error :
    noTitleBody.title = none ∧
    findOne [draft1] 1 1 false = some draft1 ∧
    publish asciiLower titleFits [draft1] 1 1 noTitleBody 7 = (.error 500 "Server error", [draft1]) ∧
    (publish asciiLower titleFits [draft1] 1 1 noTitleBody 7).1.status = 500 ∧
    (publish asciiLower titleFits [draft1] 1 1 noTitleBody 7).1.status ≠ 400 := by
  refine ⟨rfl, by decide, rfl, rfl, by decide⟩

/-! ## C6: autosave -/

theorem findOne_none_iff (s : Store) (id user : Nat) (d : Bool) :
    findOne s id user d = none ↔
      ∀ r ∈ s, ¬ (r.id = id ∧ r.userId = user ∧ r.isDeleted = d) := by
  unfold findOne
  rw [List.find?_eq_none]
  constructor
  · intro h r hr hc
    apply h r hr
    simp [hc.1, hc.2.1, hc.2.2]
  · intro h r hr hc
    simp only [Bool.and_eq_true, beq_iff_eq] at hc
    exact h r hr ⟨hc.1.1, hc.1.2, hc.2⟩

theorem mem_save (s : Store) (b r : Book) (h : r ∈ save s b) : r = b ∨ (r ∈ s ∧ r.id ≠ b.id) := by
  unfold save at h
  obtain ⟨x, hx, hxr⟩ := List.mem_map.mp h
  by_cases hid : x.id = b.id
  · left; rw [if_pos hid] at hxr; exact hxr.symm
  · right; rw [if_neg hid] at hxr; subst hxr; exact ⟨hx, hid⟩

theorem mem_save_of_ne (s : Store) (b r : Book) (h : r ∈ s) (hid : r.id ≠ b.id) :
    r ∈ save s b := by
  unfold save
  exact List.mem_map.mpr ⟨r, h, by rw [if_neg hid]⟩

/-- C6, as stated, fails: an autosave of the owner's non-deleted book whose
body carries `content: null` is answered 500 and nothing is stored. -/
theorem saveDraft_null_content_server_error :
    findOne [draft1] 1 1 false = some draft1 ∧
    nullContentBody.content = .null ∧
    saveDraft titleFits [draft1] 1 1 nullContentBody 8
      = (.error 500 "Server error", [draft1]) ∧
    (saveDraft titleFits [draft1] 1 1 nullContentBody 8).1.status = 500 := by
  decide

/-- C6, amended: on an existing, non-deleted book of the requester, an autosave
whose content, title and description are each missing or a string, and whose
row the database stores as the instance holds it, is answered 200 for every
content length and every table (any number of recent publishes); the stored
book then has content, title and description as supplied, or as before where
none was supplied, `lastSavedAt = now`, and every other field as before, and
the other rows are untouched. A supplied `null` is answered 500 and the table
stays as it was. When no row has this id, this owner and `isDeleted = false`,
the answer is 404 and the table stays as it was. -/
theorem saveDraft_spec (accepts : Book → Bool) (s : Store) (id user : Nat)
    (body : DraftBody) (now : Int) :
    (∀ book : Book, findOne s id user false = some book →
      body.content ≠ .null → body.title ≠ .null → body.description ≠ .null →
      accepts (applyDraft book body now) = true →
      ∃ b : Book,
        saveDraft accepts s id user body now = (.book 200 b, save s b) ∧
        findById (save s b) id = some b ∧
        (∀ x, body.content = .str x → b.content = x) ∧
        (body.content = .undefined → b.content = book.content) ∧
        (∀ x, body.title = .str x → b.title = x) ∧
        (body.title = .undefined → b.title = book.title) ∧
        (∀ x, body.description = .str x → b.description = x) ∧
        (body.description = .undefined → b.description = book.description) ∧
        b.lastSavedAt = now ∧
        b.id = book.id ∧ b.userId = book.userId ∧ b.subtitle = book.subtitle ∧
        b.synopsis = book.synopsis ∧ b.genre = book.genre ∧ b.tags = book.tags ∧
        b.coverImage = book.coverImage ∧ b.language = book.language ∧
        b.license = book.license ∧ b.isPublished = book.isPublished ∧
        b.isMonetized = book.isMonetized ∧ b.price = book.price ∧
        b.publishedAt = book.publishedAt ∧ b.isDeleted = book.isDeleted ∧
        b.deletedAt = book.deletedAt ∧
        b.scheduledForDeletionAt = book.scheduledForDeletionAt ∧
        (∀ r ∈ s, r.id ≠ id → r ∈ save s b) ∧
        (∀ r ∈ save s b, r = b ∨ r ∈ s)) ∧
    (∀ book : Book, findOne s id user false = some book →
      (body.content = .null ∨ body.title = .null ∨ body.description = .null) →
      saveDraft accepts s id user body now = (.error 500 "Server error", s)) ∧
    ((∀ r ∈ s, ¬ (r.id = id ∧ r.userId = user ∧ r.isDeleted = false)) →
      saveDraft accepts s id user body now = (.error 404 MSG_NOT_FOUND, s)) := by
  have hnull : ∀ f : DraftField, f ≠ .null → f.isNull = false := by
    intro f hf
    cases f with
    | undefined => rfl
    | null => exact absurd rfl hf
    | str v => rfl
  refine ⟨?_, ?_, ?_⟩
  · intro book hbook hc ht hd hacc
    obtain ⟨hmem, hid, -, -⟩ := findOne_some s id user false book hbook
    refine ⟨applyDraft book body now, ?_, ?_, ?_, ?_, ?_, ?_, ?_, ?_, rfl, rfl, rfl, rfl, rfl,
      rfl, rfl, rfl, rfl, rfl, rfl, rfl, rfl, rfl, rfl, rfl, rfl, ?_, ?_⟩
    · simp [saveDraft, hbook, hnull _ hc, hnull _ ht, hnull _ hd, hacc]
    · have h := findById_save s (applyDraft book body now) ⟨book, hmem, rfl⟩
      rw [← hid]
      exact h
    · intro x hx; simp [applyDraft, DraftField.assign, hx]
    · intro hx; simp [applyDraft, DraftField.assign, hx]
    · intro x hx; simp [applyDraft, DraftField.assign, hx]
    · intro hx; simp [applyDraft, DraftField.assign, hx]
    · intro x hx; simp [applyDraft, DraftField.assign, hx]
    · intro hx; simp [applyDraft, DraftField.assign, hx]
    · intro r hr hne
      exact mem_save_of_ne s _ r hr (by
        show r.id ≠ book.id
        rw [hid]; exact hne)
    · intro r hr
      rcases mem_save s _ r hr with h | h
      · exact Or.inl h
      · exact Or.inr h.1
  · intro book hbook h
    rcases h with h | h | h <;>
      simp [saveDraft, hbook, h, DraftField.isNull, SERVER_ERROR]
  · intro h
    have hnone := (findOne_none_iff s id user false).mpr h
    simp [saveDraft, hnone]

/-- Instance of C6, amended: an autosave of empty content by a user at the rate
limit, and one by a stranger. -/
theorem saveDraft_spec_witness :
    findOne twoPublished 2 1 false = some published2 ∧
    countPublishedSince twoPublished 1 (3000 - DAY_MS) = 2 ∧
    titleFits (applyDraft published2
      { content := .str [], title := .undefined, description := .undefined } 3000) = true ∧
    (∃ b : Book,
      saveDraft titleFits twoPublished 2 1
          { content := .str [], title := .undefined, description := .undefined } 3000
        = (.book 200 b, save twoPublished b) ∧
      b.content = [] ∧ b.title = js "Dune" ∧ b.lastSavedAt = 3000 ∧
      b.publishedAt = some 2000) ∧
    saveDraft titleFits twoPublished 2 9
        { content := .str [], title := .undefined, description := .undefined } 3000
      = (.error 404 MSG_NOT_FOUND, twoPublished) := by
  have h := saveDraft_spec titleFits twoPublished 2 1
    { content := .str [], title := .undefined, description := .undefined } 3000
  obtain ⟨b, h1, -, h3, -, -, h6, -, -, h9, -, -, -, -, -, -, -, -, -, -, -, -, h22, -⟩ :=
    h.1 published2 (by decide) (by decide) (by decide) (by decide) (by decide)
  refine ⟨by decide, by decide, by decide, ⟨b, h1, h3 [] rfl, ?_, h9, ?_⟩, ?_⟩
  · rw [h6 rfl]; rfl
  · rw [h22]; rfl
  · exact (saveDraft_spec titleFits twoPublished 2 9
      { content := .str [], title := .undefined, description := .undefined } 3000).2.2
      (by decide)

/-! ## Reachable tables are well-formed -/

theorem save_map_id (s : Store) (b : Book) : (save s b).map Book.id = s.map Book.id := by
  unfold save
  rw [List.map_map]
  apply List.map_congr_left
  intro r _
  by_cases h : r.id = b.id
  · simp [h]
  · simp [h]

theorem wellFormed_save (s : Store) (b : Book) (hs : WellFormed s)
    (hb : b.isDeleted = false → b.deletedAt = none ∧ b.scheduledForDeletionAt = none) :
    WellFormed (save s b) := by
  refine ⟨by rw [save_map_id]; exact hs.1, fun r hr hdel => ?_⟩
  rcases mem_save s b r hr with h | h
  · subst h; exact hb hdel
  · exact hs.2 r h.1 hdel

theorem wellFormed_sublist (s t : Store) (hs : WellFormed s) (h : t.Sublist s) :
    WellFormed t :=
  ⟨hs.1.sublist (h.map Book.id), fun r hr hdel => hs.2 r (h.subset hr) hdel⟩

theorem destroyEach_sublist (fails : Book → Bool) (bs : List Book) (s : Store) :
    (destroyEach fails bs s).Sublist s := by
  induction bs generalizing s with
  | nil => exact List.Sublist.refl s
  | cons b bs ih =>
    unfold destroyEach
    by_cases hf : fails b = true
    · rw [if_pos hf]
    · rw [if_neg hf]
      exact (ih (destroy s b)).trans (List.filter_sublist s)

theorem findById_none_not_mem (s : Store) (id : Nat) (h : (findById s id).isSome = false) :
    id ∉ s.map Book.id := by
  unfold findById at h
  intro hmem
  obtain ⟨r, hr, hrid⟩ := List.mem_map.mp hmem
  have hn : s.find? (fun b => b.id == id) = none := by
    cases hf : s.find? (fun b => b.id == id) with
    | none => rfl
    | some x => rw [hf] at h; simp at h
  have := List.find?_eq_none.mp hn r hr
  simp [hrid] at this

theorem wellFormed_run (lower : JsString → JsString) (accepts : Book → Bool)
    (cal : Int → Int) (s : Store) (op : Op)
    (hs : WellFormed s) : WellFormed (op.run lower accepts cal s) := by
  cases op with
  | create user newId body now =>
    show WellFormed (create accepts s user newId body now).2
    unfold create
    split
    · split
      · exact hs
      · rename_i hfresh
        have hnot := findById_none_not_mem s newId (by simpa using hfresh)
        dsimp only
        split
        · refine ⟨?_, fun r hr hdel => ?_⟩
          · rw [List.map_append, List.nodup_append]
            refine ⟨hs.1, List.nodup_singleton _, ?_⟩
            intro a ha hb
            rw [List.map_singleton, List.mem_singleton] at hb
            subst hb
            exact hnot ha
          · rcases List.mem_append.mp hr with h | h
            · exact hs.2 r h hdel
            · rw [List.mem_singleton] at h
              subst h
              exact ⟨rfl, rfl⟩
        · exact hs
    · exact hs
  | saveDraft id user body now =>
    show WellFormed (saveDraft accepts s id user body now).2
    unfold saveDraft
    cases hf : findOne s id user false with
    | none => exact hs
    | some book =>
      obtain ⟨hmem, -, -, hdel⟩ := findOne_some s id user false book hf
      simp only []
      split
      · exact hs
      · split
        · exact wellFormed_save s _ hs (fun _ => hs.2 book hmem hdel)
        · exact hs
  | publish id user body now =>
    show WellFormed (publish lower accepts s id user body now).2
    unfold publish
    split
    · exact hs
    · split
      · exact hs
      · split
        · exact hs
        · split
          · exact hs
          · split
            · exact hs
            · split
              · exact hs
              · rename_i book hf
                obtain ⟨hmem, -, -, hdel⟩ := findOne_some s id user false book hf
                split
                · dsimp only
                  split
                  · exact wellFormed_save s _ hs (fun _ => hs.2 book hmem hdel)
                  · exact hs
                · exact hs
  | softDelete id user now =>
    show WellFormed (softDelete cal s id user now).2
    unfold softDelete
    cases hf : findOne s id user false with
    | none => exact hs
    | some book => exact wellFormed_save s _ hs (fun h => absurd h (by simp))
  | restore id user =>
    show WellFormed (restore s id user).2
    unfold restore
    cases hf : findOne s id user true with
    | none => exact hs
    | some book => exact wellFormed_save s _ hs (fun _ => ⟨rfl, rfl⟩)
  | purgeExpired fails now =>
    exact wellFormed_sublist s _ hs (destroyEach_sublist fails _ s)

theorem reachable_wellFormed (lower : JsString → JsString) (accepts : Book → Bool)
    (cal : Int → Int) (s : Store)
    (h : Reachable lower accepts cal s) : WellFormed s := by
  induction h with
  | empty => exact ⟨List.nodup_nil, fun r hr => absurd hr (List.not_mem_nil r)⟩
  | step s op _ ih => exact wellFormed_run lower accepts cal s op ih

theorem find?_save (s : Store) (b : Book) (p : Book → Bool)
    (hp : ∀ r, p r = true → r.id = b.id) (hb : p b = true) (h : ∃ r ∈ s, r.id = b.id) :
    (save s b).find? p = some b := by
  unfold save
  induction s with
  | nil => simp at h
  | cons r s ih =>
    by_cases hr : r.id = b.id
    · simp [hr, hb]
    · have hpr : p r = false := by
        cases hpr : p r with
        | false => rfl
        | true => exact absurd (hp r hpr) hr
      have h2 : ∃ r ∈ s, r.id = b.id := by
        obtain ⟨x, hx, hxid⟩ := h
        rcases List.mem_cons.mp hx with rfl | hx
        · exact absurd hxid hr
        · exact ⟨x, hx, hxid⟩
      simpa [hr, hpr] using ih h2

theorem save_save (s : Store) (b1 b2 : Book) (h : b1.id = b2.id) :
    save (save s b1) b2 = save s b2 := by
  unfold save
  rw [List.map_map]
  apply List.map_congr_left
  intro r _
  by_cases hr : r.id = b2.id
  · simp [hr, h]
  · simp [hr, h]

theorem eq_of_mem_of_id_eq (s : Store) (hnd : (s.map Book.id).Nodup) (a b : Book)
    (ha : a ∈ s) (hb : b ∈ s) (h : a.id = b.id) : a = b :=
  List.inj_on_of_nodup_map hnd ha hb h

theorem save_self (s : Store) (hnd : (s.map Book.id).Nodup) (b : Book) (hb : b ∈ s) :
    save s b = s := by
  unfold save
  conv_rhs => rw [← List.map_id s]
  apply List.map_congr_left
  intro r hr
  by_cases h : r.id = b.id
  · rw [if_pos h]; exact (eq_of_mem_of_id_eq s hnd r b hr hb h).symm
  · rw [if_neg h]; rfl

theorem findById_of_mem (s : Store) (hnd : (s.map Book.id).Nodup) (b : Book) (hb : b ∈ s) :
    findById s b.id = some b := by
  have h := findById_save s b ⟨b, hb, rfl⟩
  rwa [save_self s hnd b hb] at h

/-! ## C7: soft delete followed by restore -/

theorem undelete_eq (book : Book) (now sched : Int) (h1 : book.isDeleted = false)
    (h2 : book.deletedAt = none) (h3 : book.scheduledForDeletionAt = none) :
    { { book with
          isDeleted := true
          deletedAt := some now
          scheduledForDeletionAt := some sched } with
        isDeleted := false
        deletedAt := none
        scheduledForDeletionAt := none } = book := by
  cases book
  simp only at h1 h2 h3
  subst h1 h2 h3
  rfl

/-- C7: in a table the operations can produce, a soft delete of a non-deleted
book by its owner is answered with the two dates, and the restore that follows
it answers with the book as it was before the delete (all fields, isPublished
included) and leaves the whole table as it was before the delete. -/
theorem softDelete_restore_roundtrip (lower : JsString → JsString) (accepts : Book → Bool)
    (cal : Int → Int) (s : Store)
    (hs : Reachable lower accepts cal s) (id user : Nat) (now : Int) (book : Book)
    (hb : findOne s id user false = some book) :
    ∃ s1 : Store,
      softDelete cal s id user now = (.scheduled now (cal now), s1) ∧
      restore s1 id user = (.restored book, s) ∧
      findById (restore s1 id user).2 id = some book ∧
      (findById (restore s1 id user).2 id).map Book.isPublished
        = some book.isPublished := by
  have hwf := reachable_wellFormed lower accepts cal s hs
  obtain ⟨hmem, hid, huser, hdel⟩ := findOne_some s id user false book hb
  obtain ⟨hda, hsc⟩ := hwf.2 book hmem hdel
  have hfind : findOne (save s { book with
      isDeleted := true
      deletedAt := some now
      scheduledForDeletionAt := some (cal now) }) id user true
      = some { book with
          isDeleted := true
          deletedAt := some now
          scheduledForDeletionAt := some (cal now) } := by
    unfold findOne
    apply find?_save
    · intro r hr
      simp only [Bool.and_eq_true, beq_iff_eq] at hr
      rw [hr.1.1, ← hid]
    · simp [hid, huser]
    · exact ⟨book, hmem, rfl⟩
  have hrestore : restore (save s { book with
      isDeleted := true
      deletedAt := some now
      scheduledForDeletionAt := some (cal now) }) id user
      = (.restored book, s) := by
    have hss := save_save s { book with
      isDeleted := true
      deletedAt := some now
      scheduledForDeletionAt := some (cal now) } book rfl
    unfold restore
    rw [hfind]
    simp only
    rw [undelete_eq book now (cal now) hdel hda hsc, hss, save_self s hwf.1 book hmem]
  have hlook : findById s id = some book := by
    rw [← hid]; exact findById_of_mem s hwf.1 book hmem
  refine ⟨_, ?_, hrestore, ?_, ?_⟩
  · simp [softDelete, hb]
  · rw [hrestore]; exact hlook
  · rw [hrestore]; show (findById s id).map Book.isPublished = _; rw [hlook]; rfl

/-- Instance of C7: `draft1` deleted at the instant 50 and restored. -/
theorem softDelete_restore_roundtrip_witness :
    Reachable asciiLower titleFits utcTenDays [draft1] ∧
    findOne [draft1] 1 1 false = some draft1 ∧
    ∃ s1 : Store,
      softDelete utcTenDays [draft1] 1 1 50 = (.scheduled 50 (50 + TEN_DAYS_MS), s1) ∧
      restore s1 1 1 = (.restored draft1, [draft1]) :=
  have hr : Reachable asciiLower titleFits utcTenDays [draft1] :=
    Reachable.step [] createDraft1 Reachable.empty
  have h := softDelete_restore_roundtrip asciiLower titleFits utcTenDays [draft1] hr 1 1 50
    draft1 (by decide)
  ⟨hr, by decide, h.choose, h.choose_spec.1, h.choose_spec.2.1⟩

/-! ## The cleanup script -/

theorem isExpired_iff (now : Int) (b : Book) :
    isExpired now b = true ↔
      b.isDeleted = true ∧ ∃ t, b.scheduledForDeletionAt = some t ∧ t < now := by
  unfold isExpired
  cases hs : b.scheduledForDeletionAt with
  | none => simp
  | some t => simp

theorem mem_destroyEach (fails : Book → Bool) (bs : List Book) (s : Store) (r : Book) :
    r ∈ destroyEach fails bs s ↔
      r ∈ s ∧ ∀ b ∈ bs.takeWhile (fun b => !fails b), r.id ≠ b.id := by
  induction bs generalizing s with
  | nil => simp [destroyEach]
  | cons b bs ih =>
    unfold destroyEach
    by_cases hf : fails b = true
    · simp [hf]
    · have hf2 : fails b = false := by simpa using hf
      rw [if_neg hf, ih, List.takeWhile_cons]
      simp only [hf2, Bool.not_false, if_true, List.mem_cons, forall_eq_or_imp]
      unfold destroy
      rw [List.mem_filter]
      simp only [bne_iff_ne, ne_eq]
      tauto

theorem mem_cleanup_iff (s : Store) (hwf : WellFormed s) (fails : Book → Bool) (now : Int)
    (r : Book) :
    r ∈ cleanupDeletedBooks fails s now ↔
      r ∈ s ∧ r ∉ (booksToDelete s now).takeWhile (fun b => !fails b) := by
  unfold cleanupDeletedBooks
  rw [mem_destroyEach]
  constructor
  · rintro ⟨hr, h⟩
    exact ⟨hr, fun hin => h r hin rfl⟩
  · rintro ⟨hr, h⟩
    refine ⟨hr, fun b hb hid => h ?_⟩
    have hbs : b ∈ s :=
      List.mem_of_mem_filter ((List.takeWhile_sublist _).subset hb)
    rw [eq_of_mem_of_id_eq s hwf.1 r b hr hbs hid]
    exact hb

theorem mem_cleanup_neverFails (s : Store) (hwf : WellFormed s) (now : Int) (r : Book) :
    r ∈ cleanupDeletedBooks neverFails s now ↔ r ∈ s ∧ isExpired now r = false := by
  rw [mem_cleanup_iff s hwf]
  have htw : (booksToDelete s now).takeWhile (fun b => !neverFails b) = booksToDelete s now := by
    rw [List.takeWhile_eq_self_iff]
    intro x _
    rfl
  rw [htw]
  unfold booksToDelete
  rw [List.mem_filter]
  constructor
  · rintro ⟨hr, h⟩
    refine ⟨hr, ?_⟩
    cases he : isExpired now r with
    | false => rfl
    | true => exact absurd ⟨hr, he⟩ h
  · rintro ⟨hr, h⟩
    exact ⟨hr, fun hc => by rw [h] at hc; exact absurd hc.2 (by decide)⟩

theorem mem_cleanup_of_not_expired (s : Store) (hwf : WellFormed s) (fails : Book → Bool)
    (now : Int) (r : Book) (hr : r ∈ s) (he : isExpired now r = false) :
    r ∈ cleanupDeletedBooks fails s now := by
  rw [mem_cleanup_iff s hwf]
  refine ⟨hr, fun hin => ?_⟩
  have hb : r ∈ booksToDelete s now := (List.takeWhile_sublist _).subset hin
  have := (List.mem_filter.mp hb).2
  rw [he] at this
  exact absurd this (by decide)

theorem wellFormed_cleanup (s : Store) (hwf : WellFormed s) (fails : Book → Bool)
    (now : Int) : WellFormed (cleanupDeletedBooks fails s now) :=
  wellFormed_sublist s _ hwf (destroyEach_sublist fails _ s)

theorem find?_none_of_id_absent (s : Store) (id : Nat) (p : Book → Bool)
    (hp : ∀ r, p r = true → r.id = id) (h : ∀ r ∈ s, r.id ≠ id) : s.find? p = none := by
  rw [List.find?_eq_none]
  intro r hr hpr
  exact h r hr (hp r (by simpa using hpr))

/-! ## C8: the ten days between soft delete and purge -/

theorem mem_cleanup_of_no_failure (s : Store) (hwf : WellFormed s) (fails : Book → Bool)
    (now : Int) (hno : ∀ x ∈ booksToDelete s now, fails x = false) (r : Book) :
    r ∈ cleanupDeletedBooks fails s now ↔ r ∈ s ∧ isExpired now r = false := by
  rw [mem_cleanup_iff s hwf]
  have htw : (booksToDelete s now).takeWhile (fun b => !fails b) = booksToDelete s now := by
    rw [List.takeWhile_eq_self_iff]
    intro x hx
    simp [hno x hx]
  rw [htw]
  unfold booksToDelete
  rw [List.mem_filter]
  constructor
  · rintro ⟨hr, h⟩
    refine ⟨hr, ?_⟩
    cases he : isExpired now r with
    | false => rfl
    | true => exact absurd ⟨hr, he⟩ h
  · rintro ⟨hr, h⟩
    exact ⟨hr, fun hc => by rw [h] at hc; exact absurd hc.2 (by decide)⟩

/-- C8, as stated, fails: book 2 is soft-deleted by its owner at the instant 0
and scheduled for ten days later; in the cleanup run at eleven days the
deletion of book 1, which comes first, fails, and book 2 is still in the
table after the run, though its own deletion does not fail. -/
theorem purge_failure_keeps_expired_book :
    Reachable asciiLower titleFits utcTenDays oneDeleted ∧
    (findOne oneDeleted 2 1 false).map Book.isDeleted = some false ∧
    (softDelete utcTenDays oneDeleted 2 1 0).1 = .scheduled 0 (0 + 10 * DAY_MS) ∧
    (softDelete utcTenDays oneDeleted 2 1 0).2 = twoDeleted ∧
    (findById twoDeleted 2).map Book.scheduledForDeletionAt = some (some (0 + 10 * DAY_MS)) ∧
    (findById twoDeleted 2).map (isExpired (0 + 11 * DAY_MS)) = some true ∧
    (findById twoDeleted 2).map failsOnBook1 = some false ∧
    (findById (cleanupDeletedBooks failsOnBook1 twoDeleted (0 + 11 * DAY_MS)) 2).isSome
      = true := by
  refine ⟨?_, by decide, by decide, by decide, by decide, by decide, by decide, by decide⟩
  exact Reachable.step _ (.softDelete 1 1 0)
    (Reachable.step _ createDraft2 (Reachable.step [] createDraft1 Reachable.empty))

/-- C8, amended: in a table the operations can produce, on a server whose
calendar puts ten days after `T` at `T + 10 * 24h`, a soft delete of a
non-deleted book by its owner at the instant `T` stores `isDeleted = true`,
`deletedAt = T` and `scheduledForDeletionAt = T + 10 days`. No cleanup run at
or before the schedule removes the book, whatever deletions fail, so it is
present after a run at `T + 9 days`. A run after the schedule removes it
exactly when no deletion fails before it or on it in the batch; when no
deletion of the run fails it leaves no row with its id, so after such a run at
`T + 11 days` every lookup misses it. On every table the operations can
produce, a run in which no deletion fails keeps exactly the rows that are not
both deleted and scheduled before `now`, and no run, whatever fails, removes a
row that is not deleted or whose schedule has not passed. -/
theorem softDelete_then_purge (lower : JsString → JsString) (accepts : Book → Bool)
    (cal : Int → Int) (s : Store)
    (hs : Reachable lower accepts cal s) (id user : Nat) (T : Int) (book : Book)
    (hb : findOne s id user false = some book) (hcal : cal T = T + 10 * DAY_MS) :
    (∃ (b1 : Book) (s1 : Store),
      softDelete cal s id user T = (.scheduled T (T + 10 * DAY_MS), s1) ∧
      findById s1 id = some b1 ∧
      b1.isDeleted = true ∧ b1.deletedAt = some T ∧
      b1.scheduledForDeletionAt = some (T + 10 * DAY_MS) ∧
      (∀ fails now, now ≤ T + 10 * DAY_MS →
        findById (cleanupDeletedBooks fails s1 now) id = some b1) ∧
      (∀ fails now, T + 10 * DAY_MS < now →
        (b1 ∉ cleanupDeletedBooks fails s1 now ↔
          b1 ∈ (booksToDelete s1 now).takeWhile (fun b => !fails b))) ∧
      (∀ fails now, T + 10 * DAY_MS < now →
        (∀ x ∈ booksToDelete s1 now, fails x = false) →
        ∀ r ∈ cleanupDeletedBooks fails s1 now, r.id ≠ id) ∧
      (∀ fails, findById (cleanupDeletedBooks fails s1 (T + 9 * DAY_MS)) id = some b1) ∧
      (∀ fails, (∀ x ∈ booksToDelete s1 (T + 11 * DAY_MS), fails x = false) →
        (∀ r ∈ cleanupDeletedBooks fails s1 (T + 11 * DAY_MS), r.id ≠ id) ∧
        findById (cleanupDeletedBooks fails s1 (T + 11 * DAY_MS)) id = none ∧
        findOwned (cleanupDeletedBooks fails s1 (T + 11 * DAY_MS)) id user = none)) ∧
    (∀ s2 : Store, Reachable lower accepts cal s2 → ∀ (fails : Book → Bool) (now : Int),
      (∀ x ∈ booksToDelete s2 now, fails x = false) → ∀ r : Book,
      (r ∈ cleanupDeletedBooks fails s2 now ↔
        r ∈ s2 ∧
          ¬ (r.isDeleted = true ∧ ∃ t, r.scheduledForDeletionAt = some t ∧ t < now))) ∧
    (∀ s2 : Store, Reachable lower accepts cal s2 →
      ∀ (fails : Book → Bool) (now : Int) (r : Book),
      r ∈ s2 →
      ¬ (r.isDeleted = true ∧ ∃ t, r.scheduledForDeletionAt = some t ∧ t < now) →
      r ∈ cleanupDeletedBooks fails s2 now) := by
  have hwf := reachable_wellFormed lower accepts cal s hs
  obtain ⟨hmem, hid, huser, hdel⟩ := findOne_some s id user false book hb
  have hday : (0 : Int) < DAY_MS := by decide
  have hnot : ∀ (now : Int) (r : Book),
      ¬ (r.isDeleted = true ∧ ∃ t, r.scheduledForDeletionAt = some t ∧ t < now) →
      isExpired now r = false := by
    intro now r h
    cases he : isExpired now r with
    | false => rfl
    | true => exact absurd ((isExpired_iff now r).mp he) h
  refine ⟨?_, ?_, ?_⟩
  · have hwf1 : WellFormed (save s { book with
        isDeleted := true
        deletedAt := some T
        scheduledForDeletionAt := some (T + 10 * DAY_MS) }) :=
      wellFormed_save s _ hwf (fun h => absurd h (by simp))
    have hlook : findById (save s { book with
        isDeleted := true
        deletedAt := some T
        scheduledForDeletionAt := some (T + 10 * DAY_MS) }) id
        = some { book with
            isDeleted := true
            deletedAt := some T
            scheduledForDeletionAt := some (T + 10 * DAY_MS) } := by
      have h := findById_save s { book with
        isDeleted := true
        deletedAt := some T
        scheduledForDeletionAt := some (T + 10 * DAY_MS) } ⟨book, hmem, rfl⟩
      rw [← hid]
      exact h
    have hmem1 := List.mem_of_find?_eq_some hlook
    have hexp : ∀ now, T + 10 * DAY_MS < now → isExpired now { book with
        isDeleted := true
        deletedAt := some T
        scheduledForDeletionAt := some (T + 10 * DAY_MS) } = true := by
      intro now hnow
      rw [isExpired_iff]
      exact ⟨rfl, T + 10 * DAY_MS, rfl, hnow⟩
    have hkeep : ∀ (fails : Book → Bool) (now : Int), now ≤ T + 10 * DAY_MS →
        findById (cleanupDeletedBooks fails (save s { book with
          isDeleted := true
          deletedAt := some T
          scheduledForDeletionAt := some (T + 10 * DAY_MS) }) now) id
        = some { book with
            isDeleted := true
            deletedAt := some T
            scheduledForDeletionAt := some (T + 10 * DAY_MS) } := by
      intro fails now hnow
      have hin := mem_cleanup_of_not_expired _ hwf1 fails now _ hmem1
        (hnot now _ (by
          rintro ⟨-, t, ht, hlt⟩
          simp only [Option.some.injEq] at ht
          subst ht
          omega))
      have h := findById_of_mem _ (wellFormed_cleanup _ hwf1 fails now).1 _ hin
      rw [← hid]
      exact h
    have hgone : ∀ (fails : Book → Bool) (now : Int), T + 10 * DAY_MS < now →
        (∀ x ∈ booksToDelete (save s { book with
          isDeleted := true
          deletedAt := some T
          scheduledForDeletionAt := some (T + 10 * DAY_MS) }) now, fails x = false) →
        ∀ r ∈ cleanupDeletedBooks fails (save s { book with
          isDeleted := true
          deletedAt := some T
          scheduledForDeletionAt := some (T + 10 * DAY_MS) }) now, r.id ≠ id := by
      intro fails now hnow hno r hr hrid
      obtain ⟨hrs, hre⟩ := (mem_cleanup_of_no_failure _ hwf1 fails now hno r).mp hr
      have heq := eq_of_mem_of_id_eq _ hwf1.1 r _ hrs hmem1 (by rw [hrid, ← hid])
      subst heq
      rw [hexp now hnow] at hre
      exact absurd hre (by decide)
    refine ⟨_, _, ?_, hlook, rfl, rfl, rfl, hkeep, ?_, hgone, ?_, ?_⟩
    · simp [softDelete, hb, hcal]
    · intro fails now hnow
      rw [mem_cleanup_iff _ hwf1]
      constructor
      · intro h
        by_contra hc
        exact h ⟨hmem1, hc⟩
      · intro h hc
        exact hc.2 h
    · intro fails
      exact hkeep fails _ (by omega)
    · intro fails hno
      have h := hgone fails _ (by omega) hno
      refine ⟨h, ?_, ?_⟩
      · exact find?_none_of_id_absent _ id _ (fun r hr => by simpa using hr) h
      · exact find?_none_of_id_absent _ id _
          (fun r hr => by
            simp only [Bool.and_eq_true, beq_iff_eq] at hr
            exact hr.1) h
  · intro s2 hs2 fails now hno r
    rw [mem_cleanup_of_no_failure s2 (reachable_wellFormed lower accepts cal s2 hs2) fails now
      hno r]
    constructor
    · rintro ⟨hr, he⟩
      refine ⟨hr, fun hc => ?_⟩
      rw [(isExpired_iff now r).mpr hc] at he
      exact absurd he (by decide)
    · rintro ⟨hr, he⟩
      exact ⟨hr, hnot now r he⟩
  · intro s2 hs2 fails now r hr he
    exact mem_cleanup_of_not_expired s2 (reachable_wellFormed lower accepts cal s2 hs2) fails
      now r hr (hnot now r he)

/-- Instance of C8, amended: `draft1` deleted at the instant 0. -/
theorem softDelete_then_purge_witness :
    Reachable asciiLower titleFits utcTenDays [draft1] ∧
    findOne [draft1] 1 1 false = some draft1 ∧
    utcTenDays 0 = 0 + 10 * DAY_MS ∧
    ∃ (b1 : Book) (s1 : Store),
      softDelete utcTenDays [draft1] 1 1 0 = (.scheduled 0 (0 + 10 * DAY_MS), s1) ∧
      b1.scheduledForDeletionAt = some (0 + 10 * DAY_MS) ∧
      findById (cleanupDeletedBooks failsOnBook1 s1 (0 + 9 * DAY_MS)) 1 = some b1 ∧
      ((∀ x ∈ booksToDelete s1 (0 + 11 * DAY_MS), neverFails x = false) →
        findById (cleanupDeletedBooks neverFails s1 (0 + 11 * DAY_MS)) 1 = none) := by
  have hr : Reachable asciiLower titleFits utcTenDays [draft1] :=
    Reachable.step [] createDraft1 Reachable.empty
  obtain ⟨⟨b1, s1, h1, -, -, -, h5, -, -, -, h9, h10⟩, -, -⟩ :=
    softDelete_then_purge asciiLower titleFits utcTenDays [draft1] hr 1 1 0 draft1 (by decide)
      (by decide)
  exact ⟨hr, by decide, by decide, b1, s1, h1, h5, h9 failsOnBook1,
    fun hno => (h10 neverFails hno).2.1⟩

/-! ## C9: a failing deletion in the cleanup run -/

/-- C9, as stated, fails: the books 1 and 2 are both deleted and past their
schedule; when the deletion of book 1 fails, the run ends there and book 2,
whose own deletion does not fail, is still in the table. -/
theorem cleanup_failure_aborts_batch :
    Reachable asciiLower titleFits utcTenDays twoDeleted ∧
    (booksToDelete twoDeleted (11 * DAY_MS)).map Book.id = [1, 2] ∧
    failsOnBook1 <$> findById twoDeleted 2 = some false ∧
    (findById (cleanupDeletedBooks failsOnBook1 twoDeleted (11 * DAY_MS)) 2).isSome = true ∧
    cleanupDeletedBooks failsOnBook1 twoDeleted (11 * DAY_MS) = twoDeleted ∧
    cleanupDeletedBooks neverFails twoDeleted (11 * DAY_MS) = [] := by
  refine ⟨?_, by decide, by decide, by decide, by decide, by decide⟩
  exact Reachable.step _ (.softDelete 2 1 0)
    (Reachable.step _ (.softDelete 1 1 0)
      (Reachable.step _ createDraft2
        (Reachable.step [] createDraft1 Reachable.empty)))

/-- C9, amended: in a table the operations can produce, a cleanup run removes
the expired books that come, in query order, before the first one whose
deletion fails, and nothing else: when the batch is `pre ++ b :: post`, no
deletion in `pre` fails and the deletion of `b` fails, the books of `pre` are
removed and `b` and every book of `post` stay. When no deletion fails, every
book of the batch is removed. -/
theorem cleanup_stops_at_first_failure (lower : JsString → JsString) (accepts : Book → Bool)
    (cal : Int → Int) (s : Store)
    (hs : Reachable lower accepts cal s) (fails : Book → Bool) (now : Int) :
    (∀ r, r ∈ cleanupDeletedBooks fails s now ↔
      r ∈ s ∧ r ∉ (booksToDelete s now).takeWhile (fun b => !fails b)) ∧
    (∀ (pre post : List Book) (b : Book), booksToDelete s now = pre ++ b :: post →
      (∀ x ∈ pre, fails x = false) → fails b = true →
      (∀ x ∈ pre, x ∉ cleanupDeletedBooks fails s now) ∧
      b ∈ cleanupDeletedBooks fails s now ∧
      (∀ x ∈ post, x ∈ cleanupDeletedBooks fails s now)) ∧
    ((∀ b ∈ booksToDelete s now, fails b = false) →
      ∀ b ∈ booksToDelete s now, b ∉ cleanupDeletedBooks fails s now) := by
  have hwf := reachable_wellFormed lower accepts cal s hs
  have hsub : (booksToDelete s now).Sublist s := List.filter_sublist s
  have hnd : (booksToDelete s now).Nodup := (hwf.1.sublist (hsub.map Book.id)).of_map
  refine ⟨fun r => mem_cleanup_iff s hwf fails now r, ?_, ?_⟩
  · intro pre post b hbatch hpre hb
    have htw : (booksToDelete s now).takeWhile (fun b => !fails b) = pre := by
      rw [hbatch, List.takeWhile_append_of_pos (fun x hx => by simp [hpre x hx]),
        List.takeWhile_cons_of_neg (by simp [hb]), List.append_nil]
    rw [hbatch] at hnd
    have hdisj := List.disjoint_of_nodup_append hnd
    have hin : ∀ x ∈ pre ++ b :: post, x ∈ s := fun x hx => hsub.subset (hbatch ▸ hx)
    refine ⟨fun x hx hc => ?_, ?_, fun x hx => ?_⟩
    · exact ((mem_cleanup_iff s hwf fails now x).mp hc).2 (htw ▸ hx)
    · rw [mem_cleanup_iff s hwf, htw]
      exact ⟨hin b (by simp), fun hc => hdisj hc (by simp)⟩
    · rw [mem_cleanup_iff s hwf, htw]
      exact ⟨hin x (by simp [hx]), fun hc => hdisj hc (by simp [hx])⟩
  · intro hall b hb hc
    have htw : (booksToDelete s now).takeWhile (fun b => !fails b) = booksToDelete s now := by
      rw [List.takeWhile_eq_self_iff]
      intro x hx
      simp [hall x hx]
    have := ((mem_cleanup_iff s hwf fails now b).mp hc).2
    rw [htw] at this
    exact this hb

/-- Instance of C9, amended: the table `twoDeleted` eleven days later. -/
theorem cleanup_stops_at_first_failure_witness :
    Reachable asciiLower titleFits utcTenDays twoDeleted ∧
    (∀ r, r ∈ cleanupDeletedBooks failsOnBook1 twoDeleted (11 * DAY_MS) ↔
      r ∈ twoDeleted ∧
        r ∉ (booksToDelete twoDeleted (11 * DAY_MS)).takeWhile (fun b => !failsOnBook1 b)) ∧
    ((∀ b ∈ booksToDelete twoDeleted (11 * DAY_MS), neverFails b = false) →
      ∀ b ∈ booksToDelete twoDeleted (11 * DAY_MS),
        b ∉ cleanupDeletedBooks neverFails twoDeleted (11 * DAY_MS)) :=
  have hr : Reachable asciiLower titleFits utcTenDays twoDeleted :=
    Reachable.step _ (.softDelete 2 1 0)
      (Reachable.step _ (.softDelete 1 1 0)
        (Reachable.step _ createDraft2
          (Reachable.step [] createDraft1 Reachable.empty)))
  ⟨hr, (cleanup_stops_at_first_failure asciiLower titleFits utcTenDays twoDeleted hr failsOnBook1 (11 * DAY_MS)).1,
    (cleanup_stops_at_first_failure asciiLower titleFits utcTenDays twoDeleted hr neverFails (11 * DAY_MS)).2.2⟩

/-! ## C10: duplicate bookmarks -/

theorem findBookmark_isSome_iff (bs : List Bookmark) (user bookId : Nat)
    (k : Option Int) :
    (findBookmark bs user bookId k).isSome = true ↔
      ∃ m ∈ bs, m.userId = user ∧ m.bookId = bookId ∧ m.pageIndex = k := by
  unfold findBookmark
  rw [List.find?_isSome]
  constructor
  · rintro ⟨m, hm, hp⟩
    simp only [Bool.and_eq_true, beq_iff_eq] at hp
    exact ⟨m, hm, hp.1.1, hp.1.2, hp.2⟩
  · rintro ⟨m, hm, h1, h2, h3⟩
    exact ⟨m, hm, by simp [h1, h2, h3]⟩

/-- For a published, non-deleted book and every `pageIndex` other than the
number 0 (missing, null, or a non-zero page), the add is answered with the
duplicate error exactly when the table holds a bookmark with the same user,
book and key. -/
theorem addBookmark_duplicate_iff (books : Store) (bs : List Bookmark)
    (user newId bookId : Nat) (p : PageIndex) (b : Book)
    (hbook : books.find? (fun b => b.id == bookId && b.isPublished && !b.isDeleted) = some b)
    (hp : p ≠ .num 0) :
    (addBookmark books bs user newId (some bookId) p).1
        = .error 400 "Bookmark already exists" ↔
      ∃ m ∈ bs, m.userId = user ∧ m.bookId = bookId ∧ m.pageIndex = p.key := by
  have hkey : p.orNull = p.key := by
    cases p with
    | undefined => rfl
    | null => rfl
    | num n =>
      have hn : n ≠ 0 := fun h => hp (by rw [h])
      simp [PageIndex.orNull, PageIndex.key, hn]
  rw [← findBookmark_isSome_iff, ← hkey]
  unfold addBookmark
  simp only [hbook]
  cases hf : findBookmark bs user bookId p.orNull with
  | some m => simp
  | none =>
    simp only [Option.isSome_none]
    split <;> simp

/-- C10 at the failing input: after a whole-book bookmark of user 7 on book 1
the table holds no bookmark with page 0, yet the add of page 0 is answered
"Bookmark already exists"; and an add of page 0 on the empty table stores a
bookmark with a null pageIndex, which then blocks the whole-book bookmark. -/
theorem addBookmark_page_zero_collides :
    addBookmark [published1] [] 7 100 (some 1) .undefined
      = (.created ⟨100, 7, 1, none, .book⟩, [⟨100, 7, 1, none, .book⟩]) ∧
    (∀ m ∈ [(⟨100, 7, 1, none, .book⟩ : Bookmark)], m.pageIndex ≠ some 0) ∧
    addBookmark [published1] [⟨100, 7, 1, none, .book⟩] 7 101 (some 1) (.num 0)
      = (.error 400 "Bookmark already exists", [⟨100, 7, 1, none, .book⟩]) ∧
    addBookmark [published1] [] 7 100 (some 1) (.num 0)
      = (.created ⟨100, 7, 1, none, .page⟩, [⟨100, 7, 1, none, .page⟩]) ∧
    addBookmark [published1] [⟨100, 7, 1, none, .page⟩] 7 101 (some 1) .undefined
      = (.error 400 "Bookmark already exists", [⟨100, 7, 1, none, .page⟩]) ∧
    addBookmark [published1] [⟨100, 7, 1, none, .book⟩] 7 101 (some 1) (.num 5)
      = (.created ⟨101, 7, 1, some 5, .page⟩,
          [⟨100, 7, 1, none, .book⟩, ⟨101, 7, 1, some 5, .page⟩]) := by
  decide

/-! ## What one operation does to the rows -/

theorem publish_cases (lower : JsString → JsString) (accepts : Book → Bool)
    (s : Store) (id user : Nat)
    (body : PublishBody) (now : Int) :
    (∃ (st : Nat) (msg : String), publish lower accepts s id user body now = (.error st msg, s)) ∨
    ∃ (book : Book) (title description content : JsString) (genre : List JsString),
      findOne s id user false = some book ∧
      countPublishedSince s user (now - DAY_MS) < MAX_BOOKS_PER_DAY ∧
      MIN_CHARACTER_COUNT ≤ content.length ∧ genre ≠ [] ∧
      publish lower accepts s id user body now
        = (.book 200 (applyPublish book title description content genre body now),
           save s (applyPublish book title description content genre body now)) := by
  unfold publish
  split
  · exact Or.inl ⟨_, _, rfl⟩
  · split
    · exact Or.inl ⟨_, _, rfl⟩
    · split
      · exact Or.inl ⟨_, _, rfl⟩
      · rename_i content _
        split
        · exact Or.inl ⟨_, _, rfl⟩
        · rename_i hlen
          split
          · exact Or.inl ⟨_, _, rfl⟩
          · rename_i hrate
            split
            · exact Or.inl ⟨_, _, rfl⟩
            · rename_i book hf
              split
              · dsimp only
                split
                · refine Or.inr ⟨book, _, _, content, _, hf, by omega, by omega, ?_, rfl⟩
                  simp
                · exact Or.inl ⟨_, _, rfl⟩
              · exact Or.inl ⟨_, _, rfl⟩

/-- A property of rows that the inserted row has and that each handler's
assignments keep holds on every row after an operation, when it held on every
row before. -/
theorem forall_mem_run (lower : JsString → JsString) (accepts : Book → Bool)
    (cal : Int → Int) (P : Book → Prop) (s : Store) (op : Op)
    (hcreate : ∀ newId user title description now,
      P (newBook newId user title description now))
    (hdraft : ∀ id user body now, op = .saveDraft id user body now → ∀ book : Book,
      P book → P (applyDraft book body now))
    (hpublish : ∀ id user body now, op = .publish id user body now →
      ∀ (book : Book) (title description content : JsString) (genre : List JsString),
      P book → MIN_CHARACTER_COUNT ≤ content.length → genre ≠ [] →
      P (applyPublish book title description content genre body now))
    (hdelete : ∀ (book : Book) (now sched : Int), P book → P { book with
        isDeleted := true
        deletedAt := some now
        scheduledForDeletionAt := some sched })
    (hrestore : ∀ book : Book, P book → P { book with
        isDeleted := false
        deletedAt := none
        scheduledForDeletionAt := none })
    (hs : ∀ b ∈ s, P b) : ∀ b ∈ op.run lower accepts cal s, P b := by
  have hsave : ∀ (book b1 : Book), book ∈ s → (P book → P b1) → ∀ b ∈ save s b1, P b := by
    intro book b1 hmem h b hb
    rcases mem_save s b1 b hb with rfl | hb2
    · exact h (hs book hmem)
    · exact hs b hb2.1
  cases op with
  | create user newId body now =>
    show ∀ b ∈ (create accepts s user newId body now).2, P b
    unfold create
    split
    · split
      · exact hs
      · dsimp only
        split
        · intro b hb
          rcases List.mem_append.mp hb with h | h
          · exact hs b h
          · rw [List.mem_singleton] at h
            subst h
            exact hcreate _ _ _ _ _
        · exact hs
    · exact hs
  | saveDraft id user body now =>
    show ∀ b ∈ (saveDraft accepts s id user body now).2, P b
    unfold saveDraft
    cases hf : findOne s id user false with
    | none => exact hs
    | some book =>
      dsimp only
      split
      · exact hs
      · split
        · exact hsave book _ (findOne_some s id user false book hf).1
            (hdraft id user body now rfl book)
        · exact hs
  | publish id user body now =>
    show ∀ b ∈ (publish lower accepts s id user body now).2, P b
    rcases publish_cases lower accepts s id user body now with h | h
    · obtain ⟨st, msg, h⟩ := h
      rw [h]; exact hs
    · obtain ⟨book, title, description, content, genre, hf, -, hlen, hg, h⟩ := h
      rw [h]
      exact hsave book _ (findOne_some s id user false book hf).1
        (fun hb => hpublish id user body now rfl book title description content genre
          hb hlen hg)
  | softDelete id user now =>
    show ∀ b ∈ (softDelete cal s id user now).2, P b
    unfold softDelete
    cases hf : findOne s id user false with
    | none => exact hs
    | some book =>
      exact hsave book _ (findOne_some s id user false book hf).1
        (hdelete book now (cal now))
  | restore id user =>
    show ∀ b ∈ (restore s id user).2, P b
    unfold restore
    cases hf : findOne s id user true with
    | none => exact hs
    | some book =>
      exact hsave book _ (findOne_some s id user true book hf).1 (hrestore book)
  | purgeExpired fails now =>
    intro b hb
    exact hs b ((destroyEach_sublist fails _ s).subset hb)

/-! ## C11: published books and the minimum length -/

theorem longContent_length : 5000 ≤ longContent.length := by
  unfold longContent
  simp only [List.length_replicate]
  decide

theorem publishDraft1_run :
    publishDraft1.run asciiLower titleFits utcTenDays (createDraft1.run asciiLower titleFits utcTenDays [])
      = save [draft1] (applyPublish draft1 (js "Dune") (js "A desert planet") longContent
          [js "Fiction"] (fullBody (js "Dune") longContent) 7) := by
  show (publish asciiLower titleFits [draft1] 1 1 (fullBody (js "Dune") longContent) 7).2 = _
  rw [publish_success asciiLower titleFits [draft1] 1 1 (fullBody (js "Dune") longContent) 7 (js "Dune")
    (js "A desert planet") longContent [js "Fiction"] draft1 rfl (by decide) rfl
    longContent_length (by decide) (by decide) (by decide) rfl (by decide) rfl (by decide) rfl]

/-- C11, as stated, fails: after `draft1` is created, published with 5000
code units of content and then autosaved with empty content, the table holds a
book with `isPublished = true` whose content has length 0. -/
theorem autosave_shortens_published_book :
    Reachable asciiLower titleFits utcTenDays shortened ∧
    (findById shortened 1).map Book.isPublished = some true ∧
    (findById shortened 1).map Book.content = some [] ∧
    ∃ b ∈ shortened, b.isPublished = true ∧ b.content.length < 5000 ∧ ¬ PublishedOk b := by
  have hr : Reachable asciiLower titleFits utcTenDays shortened :=
    Reachable.step _ clearDraft1
      (Reachable.step _ publishDraft1 (Reachable.step [] createDraft1 Reachable.empty))
  have hs : shortened
      = (saveDraft titleFits (save [draft1] (applyPublish draft1 (js "Dune") (js "A desert planet")
          longContent [js "Fiction"] (fullBody (js "Dune") longContent) 7)) 1 1
          { content := .str [], title := .undefined, description := .undefined } 8).2 := by
    unfold shortened
    rw [publishDraft1_run]
    rfl
  have h1 : (findById shortened 1).map Book.isPublished = some true := by rw [hs]; rfl
  have h2 : (findById shortened 1).map Book.content = some [] := by rw [hs]; rfl
  refine ⟨hr, h1, h2, ?_⟩
  cases hf : findById shortened 1 with
  | none => rw [hf] at h1; exact absurd h1 (by simp)
  | some b =>
    rw [hf] at h1 h2
    simp only [Option.map_some', Option.some.injEq] at h1 h2
    have hmem : b ∈ shortened := by
      unfold findById at hf
      exact List.mem_of_find?_eq_some hf
    refine ⟨b, hmem, h1, by rw [h2]; decide, fun hok => ?_⟩
    have := (hok h1).2.2
    rw [h2] at this
    exact absurd this (by decide)

/-- C11, amended: in every table the operations can produce, a published book
has a publish date and a non-empty genre, and every operation keeps this on
every table. The bound on the content is set by every successful publish and
is kept by every operation other than an autosave, which overwrites the
content without a check. -/
theorem published_invariant (lower : JsString → JsString) (accepts : Book → Bool)
    (cal : Int → Int) (s : Store)
    (hs : Reachable lower accepts cal s) :
    (∀ b ∈ s, b.isPublished = true → b.publishedAt ≠ none ∧ b.genre ≠ []) ∧
    (∀ (s2 : Store) (op : Op), (∀ b ∈ s2, PublishedStamped b) →
      ∀ b ∈ op.run lower accepts cal s2, PublishedStamped b) ∧
    (∀ (s2 : Store) (op : Op), (∀ id user body now, op ≠ .saveDraft id user body now) →
      (∀ b ∈ s2, PublishedOk b) → ∀ b ∈ op.run lower accepts cal s2, PublishedOk b) ∧
    (∀ (s2 : Store) (id user : Nat) (body : PublishBody) (now : Int) (st : Nat) (b : Book),
      publish lower accepts s2 id user body now = (.book st b, save s2 b) →
      b.isPublished = true ∧ b.publishedAt = some now ∧ b.genre ≠ [] ∧
        5000 ≤ b.content.length) := by
  have hstep : ∀ (s2 : Store) (op : Op), (∀ b ∈ s2, PublishedStamped b) →
      ∀ b ∈ op.run lower accepts cal s2, PublishedStamped b := by
    intro s2 op h
    apply forall_mem_run lower accepts cal PublishedStamped s2 op
    · intro newId user title description now hp
      exact absurd hp (by simp [newBook])
    · intro id user body now _ book hb hp
      exact hb hp
    · intro id user body now _ book title description content genre _ _ hg _
      exact ⟨by simp [applyPublish], hg⟩
    · intro book now sched hb hp
      exact hb hp
    · intro book hb hp
      exact hb hp
    · exact h
  refine ⟨?_, hstep, ?_, ?_⟩
  · induction hs with
    | empty => intro b hb; exact absurd hb (List.not_mem_nil b)
    | step s op _ ih => exact hstep s op ih
  · intro s2 op hne h
    apply forall_mem_run lower accepts cal PublishedOk s2 op
    · intro newId user title description now hp
      exact absurd hp (by simp [newBook])
    · intro id user body now hop
      exact absurd hop (hne id user body now)
    · intro id user body now _ book title description content genre _ hlen hg _
      exact ⟨by simp [applyPublish], hg, hlen⟩
    · intro book now sched hb hp
      exact hb hp
    · intro book hb hp
      exact hb hp
    · exact h
  · intro s2 id user body now st b hpub
    rcases publish_cases lower accepts s2 id user body now with h | h
    · obtain ⟨st2, msg, h⟩ := h
      rw [h] at hpub
      exact absurd (congrArg Prod.fst hpub) (by simp)
    · obtain ⟨book, title, description, content, genre, -, -, hlen, hg, h⟩ := h
      rw [h] at hpub
      have hb : applyPublish book title description content genre body now = b := by
        have := congrArg Prod.fst hpub
        simp only [Response.book.injEq] at this
        exact this.2
      subst hb
      exact ⟨rfl, rfl, hg, hlen⟩

/-- Instance of C11, amended: the table `shortened`, whose one book is
published and has empty content, still has its publish date and genre. -/
theorem published_invariant_witness :
    Reachable asciiLower titleFits utcTenDays shortened ∧
    ∀ b ∈ shortened, b.isPublished = true → b.publishedAt ≠ none ∧ b.genre ≠ [] :=
  have hr : Reachable asciiLower titleFits utcTenDays shortened :=
    Reachable.step _ clearDraft1
      (Reachable.step _ publishDraft1 (Reachable.step [] createDraft1 Reachable.empty))
  ⟨hr, (published_invariant asciiLower titleFits utcTenDays shortened hr).1⟩

/-! ## C12: monetization and price -/

theorem applyPublish_price (book : Book) (title description content : JsString)
    (genre : List JsString) (body : PublishBody) (now : Int) :
    (applyPublish book title description content genre body now).isMonetized
        = body.isMonetized.getD false ∧
    ((applyPublish book title description content genre body now).isMonetized = true →
      body.isMonetized = some true ∧
      (applyPublish book title description content genre body now).price = body.price) ∧
    ((applyPublish book title description content genre body now).isMonetized = false →
      (applyPublish book title description content genre body now).price = none) := by
  cases hm : body.isMonetized with
  | none => simp [applyPublish, hm]
  | some v => cases v <;> simp [applyPublish, hm]

/-- C12, as stated, fails: a publish of `draft1` that asks for monetization
and carries no price is answered 200, and the stored book has
`isMonetized = true` and a null price. -/
theorem publish_monetized_without_price :
    Reachable asciiLower titleFits utcTenDays monetizedNoPrice ∧
    monetizedNoPriceBody.isMonetized = some true ∧
    monetizedNoPriceBody.price = none ∧
    (publish asciiLower titleFits [draft1] 1 1 monetizedNoPriceBody 7).1.status = 200 ∧
    (findById monetizedNoPrice 1).map Book.isMonetized = some true ∧
    (findById monetizedNoPrice 1).map Book.price = some none ∧
    ∃ b ∈ monetizedNoPrice, ¬ PriceOk b := by
  have hr : Reachable asciiLower titleFits utcTenDays monetizedNoPrice :=
    Reachable.step _ (.publish 1 1 monetizedNoPriceBody 7)
      (Reachable.step [] createDraft1 Reachable.empty)
  have hpub := publish_success asciiLower titleFits [draft1] 1 1 monetizedNoPriceBody 7 (js "Dune")
    (js "A desert planet") longContent [js "Fiction"] draft1 rfl (by decide) rfl
    longContent_length (by decide) (by decide) (by decide) rfl (by decide) rfl (by decide) rfl
  have hs : monetizedNoPrice
      = save [draft1] (applyPublish draft1 (js "Dune") (js "A desert planet") longContent
          [js "Fiction"] monetizedNoPriceBody 7) := by
    show (publish asciiLower titleFits [draft1] 1 1 monetizedNoPriceBody 7).2 = _
    rw [hpub]
  have h1 : (findById monetizedNoPrice 1).map Book.isMonetized = some true := by
    rw [hs]; rfl
  have h2 : (findById monetizedNoPrice 1).map Book.price = some none := by
    rw [hs]; rfl
  refine ⟨hr, rfl, rfl, by rw [hpub]; rfl, h1, h2, ?_⟩
  cases hf : findById monetizedNoPrice 1 with
  | none => rw [hf] at h1; exact absurd h1 (by simp)
  | some b =>
    rw [hf] at h1 h2
    simp only [Option.map_some', Option.some.injEq] at h1 h2
    have hmem : b ∈ monetizedNoPrice := by
      unfold findById at hf
      exact List.mem_of_find?_eq_some hf
    exact ⟨b, hmem, fun hok => hok.1 h1 h2⟩

/-- C12, amended: in every table the operations can produce, a book that is
not monetized has a null price, and every operation keeps this on every table.
A successful publish stores `isMonetized` as requested (false when absent) and
the requested price when `isMonetized` is true, null otherwise; so a monetized
book has a price as long as every publish request that asks for monetization
carries one. -/
theorem price_invariant (lower : JsString → JsString) (accepts : Book → Bool)
    (cal : Int → Int) (s : Store)
    (hs : Reachable lower accepts cal s) :
    (∀ b ∈ s, b.isMonetized = false → b.price = none) ∧
    (∀ (s2 : Store) (op : Op), (∀ b ∈ s2, PriceNullUnlessMonetized b) →
      ∀ b ∈ op.run lower accepts cal s2, PriceNullUnlessMonetized b) ∧
    (∀ (s2 : Store) (op : Op),
      (∀ id user body now, op = .publish id user body now →
        body.isMonetized = some true → body.price ≠ none) →
      (∀ b ∈ s2, PriceOk b) → ∀ b ∈ op.run lower accepts cal s2, PriceOk b) ∧
    (∀ (s2 : Store) (id user : Nat) (body : PublishBody) (now : Int) (st : Nat) (b : Book),
      publish lower accepts s2 id user body now = (.book st b, save s2 b) →
      b.isMonetized = body.isMonetized.getD false ∧
      (b.isMonetized = true → b.price = body.price) ∧
      (b.isMonetized = false → b.price = none)) := by
  have hstep : ∀ (s2 : Store) (op : Op), (∀ b ∈ s2, PriceNullUnlessMonetized b) →
      ∀ b ∈ op.run lower accepts cal s2, PriceNullUnlessMonetized b := by
    intro s2 op h
    apply forall_mem_run lower accepts cal PriceNullUnlessMonetized s2 op
    · intro newId user title description now _
      rfl
    · intro id user body now _ book hb hp
      exact hb hp
    · intro id user body now _ book title description content genre _ _ _
      exact (applyPublish_price book title description content genre body now).2.2
    · intro book now sched hb hp
      exact hb hp
    · intro book hb hp
      exact hb hp
    · exact h
  refine ⟨?_, hstep, ?_, ?_⟩
  · induction hs with
    | empty => intro b hb; exact absurd hb (List.not_mem_nil b)
    | step s op _ ih => exact hstep s op ih
  · intro s2 op hprice h
    apply forall_mem_run lower accepts cal PriceOk s2 op
    · intro newId user title description now
      exact ⟨fun hp => absurd hp (by simp [newBook]), fun _ => rfl⟩
    · intro id user body now _ book hb
      exact hb
    · intro id user body now hop book title description content genre _ _ _
      have hp := applyPublish_price book title description content genre body now
      refine ⟨fun hm => ?_, hp.2.2⟩
      obtain ⟨hreq, heq⟩ := hp.2.1 hm
      rw [heq]
      exact hprice id user body now hop hreq
    · intro book now sched hb
      exact hb
    · intro book hb
      exact hb
    · exact h
  · intro s2 id user body now st b hpub
    rcases publish_cases lower accepts s2 id user body now with h | h
    · obtain ⟨st2, msg, h⟩ := h
      rw [h] at hpub
      exact absurd (congrArg Prod.fst hpub) (by simp)
    · obtain ⟨book, title, description, content, genre, -, -, -, -, h⟩ := h
      rw [h] at hpub
      have hb : applyPublish book title description content genre body now = b := by
        have := congrArg Prod.fst hpub
        simp only [Response.book.injEq] at this
        exact this.2
      subst hb
      have hp := applyPublish_price book title description content genre body now
      exact ⟨hp.1, fun hm => (hp.2.1 hm).2, hp.2.2⟩

/-- Instance of C12, amended: the table `monetizedNoPrice`. -/
theorem price_invariant_witness :
    Reachable asciiLower titleFits utcTenDays monetizedNoPrice ∧
    ∀ b ∈ monetizedNoPrice, b.isMonetized = false → b.price = none :=
  have hr : Reachable asciiLower titleFits utcTenDays monetizedNoPrice :=
    Reachable.step _ (.publish 1 1 monetizedNoPriceBody 7)
      (Reachable.step [] createDraft1 Reachable.empty)
  ⟨hr, (price_invariant asciiLower titleFits utcTenDays monetizedNoPrice hr).1⟩

/-! ## C13: the publish count under a clock that never goes back -/

theorem countPublishedSince_eq_filter (s : Store) (user : Nat) (since : Int) :
    countPublishedSince s user since = (s.filter (inWindow user since)).length := rfl

theorem countPublishedSince_antitone (s : Store) (user : Nat) (a b : Int) (h : a ≤ b) :
    countPublishedSince s user b ≤ countPublishedSince s user a := by
  rw [countPublishedSince_eq, countPublishedSince_eq, recentPublishedAts_mono s user a b h]
  exact List.length_filter_le _ _

theorem countPublishedSince_sublist (s t : Store) (user : Nat) (since : Int)
    (h : t.Sublist s) : countPublishedSince t user since ≤ countPublishedSince s user since := by
  rw [countPublishedSince_eq_filter, countPublishedSince_eq_filter]
  exact (h.filter _).length_le

theorem countPublishedSince_split (l1 l2 : List Book) (x : Book) (user : Nat) (since : Int) :
    countPublishedSince (l1 ++ x :: l2) user since
      = countPublishedSince l1 user since + (if inWindow user since x then 1 else 0)
        + countPublishedSince l2 user since := by
  simp only [countPublishedSince_eq_filter, List.filter_append, List.filter_cons,
    List.length_append]
  by_cases hx : inWindow user since x = true
  · simp [hx]; omega
  · simp [hx]

theorem save_split (s : Store) (hnd : (s.map Book.id).Nodup) (book b1 : Book)
    (hmem : book ∈ s) (hid : b1.id = book.id) :
    ∃ l1 l2, s = l1 ++ book :: l2 ∧ save s b1 = l1 ++ b1 :: l2 := by
  obtain ⟨l1, l2, rfl⟩ := List.append_of_mem hmem
  refine ⟨l1, l2, rfl, ?_⟩
  have hne : ∀ r ∈ l1 ++ l2, r.id ≠ b1.id := by
    intro r hr hrid
    have hnd2 : (l1 ++ book :: l2).Nodup := hnd.of_map
    have hrs : r ∈ l1 ++ book :: l2 := by
      rcases List.mem_append.mp hr with h | h
      · exact List.mem_append_left _ h
      · exact List.mem_append_right _ (List.mem_cons_of_mem _ h)
    have heq := eq_of_mem_of_id_eq _ hnd r book hrs hmem (hrid.trans hid)
    subst heq
    have hmid := List.nodup_middle.mp hnd2
    exact (List.nodup_cons.mp hmid).1 hr
  have hmap : ∀ l : List Book, (∀ r ∈ l, r.id ≠ b1.id) →
      l.map (fun r => if r.id = b1.id then b1 else r) = l := by
    intro l hl
    conv_rhs => rw [← List.map_id l]
    apply List.map_congr_left
    intro r hr
    rw [if_neg (hl r hr)]
    rfl
  unfold save
  rw [List.map_append, List.map_cons, if_pos hid.symm,
    hmap l1 (fun r hr => hne r (List.mem_append_left _ hr)),
    hmap l2 (fun r hr => hne r (List.mem_append_right _ hr))]

theorem countPublishedSince_save_le (s : Store) (hnd : (s.map Book.id).Nodup)
    (book b1 : Book) (hmem : book ∈ s) (hid : b1.id = book.id) (user : Nat) (since : Int) :
    countPublishedSince (save s b1) user since ≤ countPublishedSince s user since + 1 ∧
    (inWindow user since b1 = inWindow user since book →
      countPublishedSince (save s b1) user since = countPublishedSince s user since) := by
  obtain ⟨l1, l2, h1, h2⟩ := save_split s hnd book b1 hmem hid
  rw [h2, h1, countPublishedSince_split, countPublishedSince_split]
  constructor
  · split <;> split <;> omega
  · intro h
    rw [h]

theorem countPublishedSince_run (lower : JsString → JsString) (accepts : Book → Bool)
    (cal : Int → Int) (s : Store)
    (hwf : WellFormed s) (op : Op) (t : Int) (u : Nat)
    (h : countPublishedSince s u (op.clock t - DAY_MS) ≤ MAX_BOOKS_PER_DAY) :
    countPublishedSince (op.run lower accepts cal s) u (op.clock t - DAY_MS) ≤ MAX_BOOKS_PER_DAY := by
  have hsame : ∀ (since : Int) (book b1 : Book), book ∈ s → b1.id = book.id →
      b1.userId = book.userId → b1.publishedAt = book.publishedAt →
      countPublishedSince (save s b1) u since = countPublishedSince s u since := by
    intro since book b1 hmem hid hu hp
    apply (countPublishedSince_save_le s hwf.1 book b1 hmem hid u since).2
    unfold inWindow
    rw [hu, hp]
  cases op with
  | create user newId body now =>
    show countPublishedSince (create accepts s user newId body now).2 u (now - DAY_MS) ≤ _
    have h2 : countPublishedSince s u (now - DAY_MS) ≤ MAX_BOOKS_PER_DAY := h
    unfold create
    split
    · split
      · exact h2
      · dsimp only
        split
        · show countPublishedSince (s ++ _ :: []) u (now - DAY_MS) ≤ _
          rw [countPublishedSince_split]
          simp only [inWindow, newBook, Bool.and_false, Bool.false_eq_true, if_false]
          exact h2
        · exact h2
    · exact h2
  | saveDraft id user body now =>
    show countPublishedSince (saveDraft accepts s id user body now).2 u (now - DAY_MS) ≤ _
    have h2 : countPublishedSince s u (now - DAY_MS) ≤ MAX_BOOKS_PER_DAY := h
    unfold saveDraft
    cases hf : findOne s id user false with
    | none => exact h2
    | some book =>
      have hmem := (findOne_some s id user false book hf).1
      dsimp only
      split
      · exact h2
      · split
        · show countPublishedSince (save s _) u (now - DAY_MS) ≤ _
          refine le_trans (le_of_eq ?_) h2
          exact hsame (now - DAY_MS) book _ hmem rfl rfl rfl
        · exact h2
  | publish id user body now =>
    show countPublishedSince (publish lower accepts s id user body now).2 u (now - DAY_MS) ≤ _
    have h2 : countPublishedSince s u (now - DAY_MS) ≤ MAX_BOOKS_PER_DAY := h
    rcases publish_cases lower accepts s id user body now with hc | hc
    · obtain ⟨st, msg, hc⟩ := hc
      rw [hc]; exact h2
    · obtain ⟨book, title, description, content, genre, hf, hrate, -, -, hc⟩ := hc
      obtain ⟨hmem, -, huser, -⟩ := findOne_some s id user false book hf
      rw [hc]
      have hle := countPublishedSince_save_le s hwf.1 book
        (applyPublish book title description content genre body now) hmem rfl u (now - DAY_MS)
      by_cases hu : u = user
      · subst hu
        show countPublishedSince (save s _) u (now - DAY_MS) ≤ _
        omega
      · show countPublishedSince (save s _) u (now - DAY_MS) ≤ _
        rw [hle.2 (by
          have hne : (book.userId == u) = false := by
            rw [huser]; simpa using fun h => hu h.symm
          simp [inWindow, applyPublish, hne])]
        exact h2
  | softDelete id user now =>
    show countPublishedSince (softDelete cal s id user now).2 u (now - DAY_MS) ≤ _
    have h2 : countPublishedSince s u (now - DAY_MS) ≤ MAX_BOOKS_PER_DAY := h
    unfold softDelete
    cases hf : findOne s id user false with
    | none => exact h2
    | some book =>
      have hmem := (findOne_some s id user false book hf).1
      show countPublishedSince (save s _) u (now - DAY_MS) ≤ _
      refine le_trans (le_of_eq ?_) h2
      exact hsame (now - DAY_MS) book _ hmem rfl rfl rfl
  | restore id user =>
    show countPublishedSince (restore s id user).2 u (t - DAY_MS) ≤ _
    have h2 : countPublishedSince s u (t - DAY_MS) ≤ MAX_BOOKS_PER_DAY := h
    unfold restore
    cases hf : findOne s id user true with
    | none => exact h2
    | some book =>
      have hmem := (findOne_some s id user true book hf).1
      show countPublishedSince (save s _) u (t - DAY_MS) ≤ _
      refine le_trans (le_of_eq ?_) h2
      exact hsame (t - DAY_MS) book _ hmem rfl rfl rfl
  | purgeExpired fails now =>
    exact le_trans (countPublishedSince_sublist s _ u _ (destroyEach_sublist fails _ s)) h

theorem reachableAt_bounded (lower : JsString → JsString) (accepts : Book → Bool)
    (cal : Int → Int) (s : Store) (t : Int)
    (hs : ReachableAt lower accepts cal s t) :
    WellFormed s ∧ ∀ u, countPublishedSince s u (t - DAY_MS) ≤ MAX_BOOKS_PER_DAY := by
  induction hs with
  | empty t =>
    exact ⟨⟨List.nodup_nil, fun r hr => absurd hr (List.not_mem_nil r)⟩,
      fun u => Nat.zero_le _⟩
  | step s t op _ hle ih =>
    refine ⟨wellFormed_run lower accepts cal s op ih.1, fun u => ?_⟩
    apply countPublishedSince_run lower accepts cal s ih.1 op t u
    exact le_trans (countPublishedSince_antitone s u _ _ (by omega)) (ih.2 u)

/-- C13: when the operations run one after the other and the clock never goes
back, then in every table they produce from the empty one, at every instant
`now` not before the last operation and for every user, at most
`MAX_BOOKS_PER_DAY = 2` of the user's books have `publishedAt >= now - 24h`;
so the publish-limit handler reports `count <= limit` and
`remaining = limit - count`. -/
theorem publish_limit_respected (lower : JsString → JsString) (accepts : Book → Bool)
    (cal : Int → Int) (s : Store) (t now : Int)
    (user : Nat) (hs : ReachableAt lower accepts cal s t) (hnow : t ≤ now) :
    MAX_BOOKS_PER_DAY = 2 ∧
    countPublishedSince s user (now - DAY_MS) ≤ MAX_BOOKS_PER_DAY ∧
    (getPublishLimitStatus s user now).count = countPublishedSince s user (now - DAY_MS) ∧
    (getPublishLimitStatus s user now).limit = MAX_BOOKS_PER_DAY ∧
    (getPublishLimitStatus s user now).count ≤ (getPublishLimitStatus s user now).limit ∧
    (getPublishLimitStatus s user now).remaining
      = ((getPublishLimitStatus s user now).limit : Int)
        - ((getPublishLimitStatus s user now).count : Int) := by
  have hb := (reachableAt_bounded lower accepts cal s t hs).2 user
  have hc : countPublishedSince s user (now - DAY_MS) ≤ MAX_BOOKS_PER_DAY :=
    le_trans (countPublishedSince_antitone s user _ _ (by omega)) hb
  refine ⟨rfl, hc, rfl, rfl, hc, ?_⟩
  show max 0 ((MAX_BOOKS_PER_DAY : Int) - (countPublishedSince s user (now - DAY_MS) : Int))
    = (MAX_BOOKS_PER_DAY : Int) - (countPublishedSince s user (now - DAY_MS) : Int)
  apply max_eq_right
  omega

/-- Instance of C13: two books published at the instants 1000 and 2000, read
at the instant 2500. -/
theorem publish_limit_respected_witness :
    ReachableAt asciiLower titleFits utcTenDays publishedTwice 2000 ∧
    (2000 : Int) ≤ 2500 ∧
    countPublishedSince publishedTwice 1 (2500 - DAY_MS) ≤ MAX_BOOKS_PER_DAY ∧
    (getPublishLimitStatus publishedTwice 1 2500).count
      ≤ (getPublishLimitStatus publishedTwice 1 2500).limit :=
  have hr : ReachableAt asciiLower titleFits utcTenDays publishedTwice 2000 :=
    ReachableAt.step _ 1000 (.publish 2 1 (fullBody (js "Emma") longContent) 2000)
      (ReachableAt.step _ 0 (.publish 1 1 (fullBody (js "Dune") longContent) 1000)
        (ReachableAt.step _ 0 createDraft2
          (ReachableAt.step [] 0 createDraft1 (ReachableAt.empty 0) (by decide))
          (by decide))
        (by decide))
      (by decide)
  have h := publish_limit_respected asciiLower titleFits utcTenDays publishedTwice 2000 2500 1 hr (by decide)
  ⟨hr, by decide, h.2.1, h.2.2.2.2.1⟩

end Inkwell
